import Mathlib

/-!
Verification of the C→R assessment widget (src/src/components/CERWidget.tsx).

This file gives a shallow embedding of the widget's scoring/aggregation
engine and its state serialization & reconciliation logic, and proves the
specified properties about it.

Modelling conventions:
* JavaScript numbers appearing in program state are modelled as exact
  rationals (the aggregation engine) and, at the transport layer, as the
  decimal tokens JSON.stringify prints (structure JsNum below, the value
  m / 10 ^ e).  JSON round-trips JavaScript numbers exactly via their
  shortest decimal representation, so the decimal-token model is faithful.
* Strings are Lean Strings (sequences of unicode scalar values).
* `btoa(unescape(encodeURIComponent(-)))` is modelled as UTF-8 encoding
  followed by base64; `decodeURIComponent(escape(atob(-)))` as the inverse,
  failing (Option.none) exactly where the browser primitives throw.
* `JSON.parse` is modelled at two precisions.  For the share-link round
  trip, decodeState is a parser of the transport grammar, exact on
  canonical encodeState output (the domain of the round-trip claims); the
  version field is parsed but deliberately NOT validated, exactly as in
  the source, which returns the parsed object without inspecting `v`.
  The useState initializers, which duck-type whatever JSON.parse returns,
  are modelled dynamically instead: Json values, a general JSON parser
  (jsonParse, decodeStateDyn), JavaScript member access (undefined on
  non-objects, TypeError on null), truthiness and Map semantics, so that
  wrong-shape blobs are adopted and the unguarded hash items path can
  raise, exactly as in the source.
-/

namespace CERWidget

/-- The two metric groups of the catalog ("capacity" | "adaptability"). -/
inductive Group where
  | capacity
  | adaptability
deriving DecidableEq

/-- A catalog metric with its current value (interface MetricItem).
Values are JavaScript numbers that are integers in all program flows. -/
structure MetricItem where
  id : String
  label : String
  help : String
  group : Group
  value : Int
deriving DecidableEq

/-- A JSON decimal number token: the value m / 10 ^ e, printed with e
digits after the decimal point (none when e = 0). -/
structure JsNum where
  m : Int
  e : Nat
deriving DecidableEq

/-- Numeric value of a decimal token. -/
def JsNum.toRat (x : JsNum) : ℚ := (x.m : ℚ) / (10 : ℚ) ^ x.e

/-- interface Weights: capacityWeight / adaptabilityWeight (0-1). -/
structure Weights where
  capacityWeight : JsNum
  adaptabilityWeight : JsNum
deriving DecidableEq

/-- interface AssessmentContext: free-text metadata. -/
structure AssessmentContext where
  teamName : String
  department : String
  assessmentDate : String
  assessorName : String
  assessmentPurpose : String
deriving DecidableEq

/-- One entry of the encoded items array: items.map(({id, value}) => ...). -/
structure SnapItem where
  id : String
  value : Int
deriving DecidableEq

/-- The transport object built by encodeState:
\x7b v, items, weights, context \x7d. -/
structure Snapshot where
  v : Int
  items : List SnapItem
  weights : Weights
  context : AssessmentContext
deriving DecidableEq

/-- const defaultItems: the fixed ten-entry catalog. -/
def defaultItems : List MetricItem :=
  [ { id := "autonomy", label := "Autonomy",
      help := "Teams can make decisions without constant approval gates.",
      group := Group.capacity, value := 60 },
    { id := "psych_safety", label := "Psychological Safety",
      help := "It's safe to speak up, share half-formed ideas, and challenge assumptions.",
      group := Group.capacity, value := 55 },
    { id := "experimentation", label := "Experimentation Resources",
      help := "Time, tools, and budget exist for small bets and prototypes.",
      group := Group.capacity, value := 50 },
    { id := "idea_flow", label := "Idea Flow",
      help := "Ideas travel across functions; there are visible intake/triage paths.",
      group := Group.capacity, value := 52 },
    { id := "leadership_support", label := "Leadership Support",
      help := "Leaders role‑model curiosity and protect time for exploration.",
      group := Group.capacity, value := 58 },
    { id := "reframing_speed", label := "Reframing Speed",
      help := "Ability to reframe a problem quickly when conditions shift.",
      group := Group.adaptability, value := 48 },
    { id := "pivot_ability", label := "Pivot Ability",
      help := "Capacity to reconfigure plans, teams, or roadmaps at short notice.",
      group := Group.adaptability, value := 45 },
    { id := "novel_options", label := "Novel Options",
      help := "Number/quality of nonobvious options generated under pressure.",
      group := Group.adaptability, value := 47 },
    { id := "xfn_swarm", label := "Cross‑Functional Swarm",
      help := "Teams can swarm across boundaries to solve emergent issues.",
      group := Group.adaptability, value := 51 },
    { id := "learning_loop", label := "Learning Loop Speed",
      help := "Time from signal → insight → action → updated playbook.",
      group := Group.adaptability, value := 49 } ]

/-- const defaultWeights = \x7b capacityWeight: 0.5, adaptabilityWeight: 0.5 \x7d. -/
def defaultWeights : Weights := ⟨⟨5, 1⟩, ⟨5, 1⟩⟩

/-- const defaultContext.  `today` stands for
new Date().toISOString().split('T')[0], the ten-character YYYY-MM-DD date
captured when the module loads; every other field is the empty string. -/
def defaultContext (today : String) : AssessmentContext :=
  { teamName := ""
    department := ""
    assessmentDate := today
    assessorName := ""
    assessmentPurpose := "" }

/-- function clamp01(n) \x7b return Math.max(0, Math.min(1, n)); \x7d -/
def clamp01 (n : ℚ) : ℚ := max 0 (min 1 n)

/-- function avg(values): 0 for the empty list, else sum / length. -/
def avg (values : List ℚ) : ℚ :=
  if values.length = 0 then 0 else values.sum / (values.length : ℚ)

/-- capacityScore: mean of the values of the capacity-group items. -/
def capacityScore (items : List MetricItem) : ℚ :=
  avg (((items.filter (fun i => i.group = Group.capacity)).map (fun i => (i.value : ℚ))))

/-- adaptabilityScore: mean of the values of the adaptability-group items. -/
def adaptabilityScore (items : List MetricItem) : ℚ :=
  avg (((items.filter (fun i => i.group = Group.adaptability)).map (fun i => (i.value : ℚ))))

/-- const capacityW = clamp01(weights.capacityWeight). -/
def capacityW (weights : Weights) : ℚ := clamp01 weights.capacityWeight.toRat

/-- const adaptabilityW = clamp01(weights.adaptabilityWeight). -/
def adaptabilityW (weights : Weights) : ℚ := clamp01 weights.adaptabilityWeight.toRat

/-- const totalW = capacityW + adaptabilityW || 1 (the JavaScript || turns a
zero total into 1). -/
def totalW (weights : Weights) : ℚ :=
  if capacityW weights + adaptabilityW weights = 0 then 1
  else capacityW weights + adaptabilityW weights

/-- const CER = (capacityW/totalW)*capacityScore + (adaptabilityW/totalW)*adaptabilityScore. -/
def CER (items : List MetricItem) (weights : Weights) : ℚ :=
  (capacityW weights / totalW weights) * capacityScore items
  + (adaptabilityW weights / totalW weights) * adaptabilityScore items

/-- The slider write path (onChange of a metric slider):
setItems(prev => prev.map((p, j) => (j === idx ? \x7b ...p, value: v \x7d : p))).
The incoming value is stored as-is; no clamping happens here. -/
def setMetricValue (items : List MetricItem) (idx : Nat) (v : Int) : List MetricItem :=
  items.mapIdx (fun j p => if j = idx then { p with value := v } else p)

/-- new Map(parsed.map(p => [p.id, p.value])).get(id): a JavaScript Map
built from an entry list keeps the last entry for a duplicated key. -/
def mapGet (ps : List (String × Int)) (id : String) : Option Int :=
  List.lookup id ps.reverse

/-- The merge-on-load step:
defaultItems.map(d => (\x7b ...d, value: map.get(d.id) ?? d.value \x7d)). -/
def mergeItems (ps : List (String × Int)) : List MetricItem :=
  defaultItems.map (fun d => { d with value := (mapGet ps d.id).getD d.value })

/-- The widget state owned by the component: items, weights, context,
and the URL fragment. -/
structure AppState where
  items : List MetricItem
  weights : Weights
  context : AssessmentContext
  hash : String
deriving DecidableEq

/-- function resetAll(): setItems(defaultItems); setWeights(defaultWeights);
setContext(defaultContext); window.location.hash = "". -/
def resetAll (today : String) (_prior : AppState) : AppState :=
  { items := defaultItems
    weights := defaultWeights
    context := defaultContext today
    hash := "" }

/-- ASCII digit test. -/
def isDig (c : Char) : Bool := decide ('0' ≤ c ∧ c ≤ '9')

/-- The digit character for n < 10. -/
def digChar (n : Nat) : Char := Char.ofNat (48 + n)

/-- Base-10 digits of a natural number, most significant first. -/
def natDigits (n : Nat) : List Char :=
  if n < 10 then [digChar n] else natDigits (n / 10) ++ [digChar (n % 10)]
termination_by n
decreasing_by omega

/-- The digits of k zero-padded on the left to width e. -/
def padDigits (k e : Nat) : List Char :=
  List.replicate (e - (natDigits k).length) '0' ++ natDigits k

/-- The unsigned part of a printed decimal: integer digits, then e
fraction digits when e is nonzero. -/
def natPart (n e : Nat) : List Char :=
  if e = 0 then natDigits n
  else natDigits (n / 10 ^ e) ++ '.' :: padDigits (n % 10 ^ e) e

/-- The decimal token JSON.stringify prints for a JsNum: optional minus
sign, integer part, and e fraction digits when e is nonzero. -/
def numToChars (x : JsNum) : List Char :=
  (if x.m < 0 then ['-'] else []) ++ natPart x.m.natAbs x.e

/-- True when a character list does not continue a digit run. -/
def digStop : List Char → Bool
  | [] => true
  | c :: _ => !(isDig c)

/-- True when a character list does not continue a number token. -/
def numStop : List Char → Bool
  | [] => true
  | c :: _ => !(isDig c) && c != '.'

/-- Consume a maximal run of digits: value, digit count, remainder. -/
def parseDigits : List Char → Nat → Nat → Nat × Nat × List Char
  | [], acc, cnt => (acc, cnt, [])
  | c :: rest, acc, cnt =>
    if isDig c then parseDigits rest (acc * 10 + (c.toNat - 48)) (cnt + 1)
    else (acc, cnt, c :: rest)

/-- Parse an unsigned JSON number: integer part, optional fraction. -/
def parseNumNat (cs : List Char) : Option ((Nat × Nat) × List Char) :=
  match cs with
  | [] => none
  | c :: _ =>
    if isDig c then
      match parseDigits cs 0 0 with
      | (a, _, rest1) =>
        match rest1 with
        | [] => some ((a, 0), [])
        | r :: rs =>
          if r = '.' then
            match rs with
            | [] => none
            | d :: _ =>
              if isDig d then
                match parseDigits rs 0 0 with
                | (b, L, rest2) => some ((a * 10 ^ L + b, L), rest2)
              else none
          else some ((a, 0), r :: rs)
    else none

/-- Parse a JSON number: optional minus sign, then unsigned number. -/
def parseNum (cs : List Char) : Option (JsNum × List Char) :=
  match cs with
  | [] => none
  | c :: cs1 =>
    if c = '-' then
      match parseNumNat cs1 with
      | some (x, rest) => some (⟨-(x.1 : Int), x.2⟩, rest)
      | none => none
    else
      match parseNumNat (c :: cs1) with
      | some (x, rest) => some (⟨(x.1 : Int), x.2⟩, rest)
      | none => none

/-- Parse a JSON number that must be an integer (the v and value fields
of the transport shape carry integers). -/
def parseIntNum (cs : List Char) : Option (Int × List Char) :=
  match parseNum cs with
  | some (x, rest) => if x.e = 0 then some (x.m, rest) else none
  | none => none

/-- Lower-case hex digit for n < 16. -/
def hexChar (n : Nat) : Char := if n < 10 then Char.ofNat (48 + n) else Char.ofNat (87 + n)

/-- Value of a hex digit character. -/
def hexVal (c : Char) : Option Nat :=
  if isDig c then some (c.toNat - 48)
  else if 'a' ≤ c ∧ c ≤ 'f' then some (c.toNat - 87)
  else if 'A' ≤ c ∧ c ≤ 'F' then some (c.toNat - 55)
  else none

/-- JSON.stringify escaping of one character: quote and backslash get a
backslash escape, the five named control characters get short escapes,
other control characters get a unicode escape, everything else is
printed literally. -/
def escChar (c : Char) : List Char :=
  if c = '"' then ['\\', '"']
  else if c = '\\' then ['\\', '\\']
  else if c = Char.ofNat 8 then ['\\', 'b']
  else if c = Char.ofNat 9 then ['\\', 't']
  else if c = Char.ofNat 10 then ['\\', 'n']
  else if c = Char.ofNat 12 then ['\\', 'f']
  else if c = Char.ofNat 13 then ['\\', 'r']
  else if c.toNat < 32 then
    ['\\', 'u', '0', '0', hexChar (c.toNat / 16), hexChar (c.toNat % 16)]
  else [c]

/-- JSON.stringify escaping of a whole string body. -/
def escString : List Char → List Char
  | [] => []
  | c :: cs => escChar c ++ escString cs

/-- A JSON string literal: quote, escaped body, quote. -/
def qstr (s : String) : List Char := '"' :: (escString s.toList ++ ['"'])

/-- Meaning of a single-character escape after a backslash. -/
def unescape1 (e : Char) : Option Char :=
  if e = '"' then some '"'
  else if e = '\\' then some '\\'
  else if e = '/' then some '/'
  else if e = 'b' then some (Char.ofNat 8)
  else if e = 'f' then some (Char.ofNat 12)
  else if e = 'n' then some (Char.ofNat 10)
  else if e = 'r' then some (Char.ofNat 13)
  else if e = 't' then some (Char.ofNat 9)
  else none

/-- Parse the body of a JSON string up to and including its closing
quote; returns the decoded body and the remainder. -/
def parseJStrAux : List Char → Option (List Char × List Char)
  | [] => none
  | c :: rest =>
    if c = '"' then some ([], rest)
    else if c = '\\' then
      match rest with
      | [] => none
      | e :: rest2 =>
        if e = 'u' then
          match rest2 with
          | h1 :: h2 :: h3 :: h4 :: rest3 =>
            match hexVal h1, hexVal h2, hexVal h3, hexVal h4 with
            | some v1, some v2, some v3, some v4 =>
              if (Char.ofNat (v1 * 4096 + v2 * 256 + v3 * 16 + v4)).toNat
                  = v1 * 4096 + v2 * 256 + v3 * 16 + v4 then
                match parseJStrAux rest3 with
                | some (s, r) => some (Char.ofNat (v1 * 4096 + v2 * 256 + v3 * 16 + v4) :: s, r)
                | none => none
              else none
            | _, _, _, _ => none
          | _ => none
        else
          match unescape1 e with
          | some u =>
            match parseJStrAux rest2 with
            | some (s, r) => some (u :: s, r)
            | none => none
          | none => none
    else
      match parseJStrAux rest with
      | some (s, r) => some (c :: s, r)
      | none => none

/-- Parse a quoted JSON string. -/
def parseQString (cs : List Char) : Option (String × List Char) :=
  match cs with
  | [] => none
  | c :: rest =>
    if c = '"' then
      match parseJStrAux rest with
      | some (l, r) => some (String.mk l, r)
      | none => none
    else none

/-- Consume an expected literal token. -/
def expect : List Char → List Char → Option (List Char)
  | [], cs => some cs
  | _ :: _, [] => none
  | p :: ps, c :: cs => if c = p then expect ps cs else none

/-- Literal fragments of the transport encoding (key order as in the
source's object literals). -/
def litVKey : List Char := ("\x7b\"v\":").toList

def litItemsKey : List Char := (",\"items\":").toList

def litWeightsKey : List Char := (",\"weights\":").toList

def litContextKey : List Char := (",\"context\":").toList

def litClose : List Char := ("\x7d").toList

def litItemOpen : List Char := '\x7b' :: ("\"id\":").toList

def litItemVal : List Char := (",\"value\":").toList

def litWOpen : List Char := ("\x7b\"capacityWeight\":").toList

def litWMid : List Char := (",\"adaptabilityWeight\":").toList

def litCOpen : List Char := ("\x7b\"teamName\":").toList

def litCDep : List Char := (",\"department\":").toList

def litCDate : List Char := (",\"assessmentDate\":").toList

def litCAsr : List Char := (",\"assessorName\":").toList

def litCPur : List Char := (",\"assessmentPurpose\":").toList

/-- JSON text of one items entry. -/
def strItem (it : SnapItem) : List Char :=
  litItemOpen ++ qstr it.id ++ litItemVal ++ numToChars ⟨it.value, 0⟩ ++ litClose

/-- JSON text of the items array after its first entry. -/
def strItemsRest : List SnapItem → List Char
  | [] => [']']
  | it :: more => ',' :: (strItem it ++ strItemsRest more)

/-- JSON text of the items array. -/
def strItemsArr : List SnapItem → List Char
  | [] => ['[', ']']
  | it :: more => '[' :: (strItem it ++ strItemsRest more)

/-- JSON text of the weights object. -/
def strWeightsObj (w : Weights) : List Char :=
  litWOpen ++ numToChars w.capacityWeight ++ litWMid ++ numToChars w.adaptabilityWeight
  ++ litClose

/-- JSON text of the context object. -/
def strContextObj (c : AssessmentContext) : List Char :=
  litCOpen ++ qstr c.teamName ++ litCDep ++ qstr c.department ++ litCDate
  ++ qstr c.assessmentDate ++ litCAsr ++ qstr c.assessorName ++ litCPur
  ++ qstr c.assessmentPurpose ++ litClose

/-- JSON.stringify of the transport object, with the source's key
insertion order and no whitespace. -/
def stringifySnap (s : Snapshot) : List Char :=
  litVKey ++ numToChars ⟨s.v, 0⟩ ++ litItemsKey ++ strItemsArr s.items
  ++ litWeightsKey ++ strWeightsObj s.weights ++ litContextKey ++ strContextObj s.context
  ++ litClose

/-- Parse one items entry. -/
def parseItem (cs : List Char) : Option (SnapItem × List Char) :=
  (expect litItemOpen cs).bind fun cs1 =>
  (parseQString cs1).bind fun ic =>
  (expect litItemVal ic.2).bind fun cs2 =>
  (parseIntNum cs2).bind fun vc =>
  (expect litClose vc.2).bind fun rest =>
  some (⟨ic.1, vc.1⟩, rest)

/-- Parse the items array after its first entry (fuelled loop). -/
def parseItemsRest : Nat → List Char → Option (List SnapItem × List Char)
  | _, [] => none
  | fuel, c :: cs =>
    if c = ']' then some ([], cs)
    else if c = ',' then
      match fuel with
      | 0 => none
      | fuel + 1 =>
        (parseItem cs).bind fun ic =>
        (parseItemsRest fuel ic.2).bind fun mc =>
        some (ic.1 :: mc.1, mc.2)
    else none

/-- Parse the items array. -/
def parseItemsArr (fuel : Nat) (cs : List Char) : Option (List SnapItem × List Char) :=
  match cs with
  | [] => none
  | c :: cs1 =>
    if c = '[' then
      match cs1 with
      | [] => none
      | d :: cs2 =>
        if d = ']' then some ([], cs2)
        else
          (parseItem (d :: cs2)).bind fun ic =>
          (parseItemsRest fuel ic.2).bind fun mc =>
          some (ic.1 :: mc.1, mc.2)
    else none

/-- Parse the weights object. -/
def parseWeightsObj (cs : List Char) : Option (Weights × List Char) :=
  (expect litWOpen cs).bind fun cs1 =>
  (parseNum cs1).bind fun cc =>
  (expect litWMid cc.2).bind fun cs2 =>
  (parseNum cs2).bind fun ac =>
  (expect litClose ac.2).bind fun rest =>
  some (⟨cc.1, ac.1⟩, rest)

/-- Parse the context object. -/
def parseContextObj (cs : List Char) : Option (AssessmentContext × List Char) :=
  (expect litCOpen cs).bind fun cs1 =>
  (parseQString cs1).bind fun tn =>
  (expect litCDep tn.2).bind fun cs2 =>
  (parseQString cs2).bind fun dp =>
  (expect litCDate dp.2).bind fun cs3 =>
  (parseQString cs3).bind fun dt =>
  (expect litCAsr dt.2).bind fun cs4 =>
  (parseQString cs4).bind fun an =>
  (expect litCPur an.2).bind fun cs5 =>
  (parseQString cs5).bind fun ap =>
  (expect litClose ap.2).bind fun rest =>
  some (⟨tn.1, dp.1, dt.1, an.1, ap.1⟩, rest)

/-- Parse the whole transport object.  The version number is parsed but
its value is not inspected, exactly as in the source. -/
def parseSnap (fuel : Nat) (cs : List Char) : Option (Snapshot × List Char) :=
  (expect litVKey cs).bind fun cs1 =>
  (parseIntNum cs1).bind fun vc =>
  (expect litItemsKey vc.2).bind fun cs2 =>
  (parseItemsArr fuel cs2).bind fun ic =>
  (expect litWeightsKey ic.2).bind fun cs3 =>
  (parseWeightsObj cs3).bind fun wc =>
  (expect litContextKey wc.2).bind fun cs4 =>
  (parseContextObj cs4).bind fun cc =>
  (expect litClose cc.2).bind fun rest =>
  some (⟨vc.1, ic.1, wc.1, cc.1⟩, rest)

/-- UTF-8 bytes of one scalar value (what unescape(encodeURIComponent(-))
produces per character). -/
def utf8EncodeChar (c : Char) : List Nat :=
  if c.toNat < 128 then [c.toNat]
  else if c.toNat < 2048 then [192 + c.toNat / 64, 128 + c.toNat % 64]
  else if c.toNat < 65536 then
    [224 + c.toNat / 4096, 128 + (c.toNat / 64) % 64, 128 + c.toNat % 64]
  else
    [240 + c.toNat / 262144, 128 + (c.toNat / 4096) % 64, 128 + (c.toNat / 64) % 64,
     128 + c.toNat % 64]

/-- UTF-8 bytes of a string. -/
def utf8Encode : List Char → List Nat
  | [] => []
  | c :: cs => utf8EncodeChar c ++ utf8Encode cs

/-- UTF-8 continuation byte test. -/
def contByte (b : Nat) : Bool := decide (128 ≤ b ∧ b < 192)

/-- Decode one UTF-8 sequence from the head of a byte string, yielding
the scalar value and the remaining bytes; fails on malformed sequences
exactly where decodeURIComponent(escape(-)) throws. -/
def utf8DecodeChar1 : List Nat → Option (Char × List Nat)
  | [] => none
  | b :: rest =>
    if b < 128 then some (Char.ofNat b, rest)
    else if b < 192 then none
    else if b < 224 then
      match rest with
      | b2 :: rest2 =>
        if contByte b2 ∧ 128 ≤ (b - 192) * 64 + (b2 - 128) then
          some (Char.ofNat ((b - 192) * 64 + (b2 - 128)), rest2)
        else none
      | [] => none
    else if b < 240 then
      match rest with
      | b2 :: b3 :: rest3 =>
        if contByte b2 ∧ contByte b3
            ∧ 2048 ≤ (b - 224) * 4096 + (b2 - 128) * 64 + (b3 - 128)
            ∧ (Char.ofNat ((b - 224) * 4096 + (b2 - 128) * 64 + (b3 - 128))).toNat
              = (b - 224) * 4096 + (b2 - 128) * 64 + (b3 - 128) then
          some (Char.ofNat ((b - 224) * 4096 + (b2 - 128) * 64 + (b3 - 128)), rest3)
        else none
      | _ => none
    else if b < 248 then
      match rest with
      | b2 :: b3 :: b4 :: rest4 =>
        if contByte b2 ∧ contByte b3 ∧ contByte b4
            ∧ 65536 ≤ (b - 240) * 262144 + (b2 - 128) * 4096 + (b3 - 128) * 64 + (b4 - 128)
            ∧ (Char.ofNat ((b - 240) * 262144 + (b2 - 128) * 4096 + (b3 - 128) * 64
                + (b4 - 128))).toNat
              = (b - 240) * 262144 + (b2 - 128) * 4096 + (b3 - 128) * 64 + (b4 - 128) then
          some (Char.ofNat ((b - 240) * 262144 + (b2 - 128) * 4096 + (b3 - 128) * 64
            + (b4 - 128)), rest4)
        else none
      | _ => none
    else none

/-- Fuelled loop decoding UTF-8 sequences until the byte string is
exhausted; each step consumes at least one byte, so the byte count is
always enough fuel. -/
def utf8DecodeLoop : Nat → List Nat → Option (List Char)
  | _, [] => some []
  | 0, _ :: _ => none
  | fuel + 1, b :: rest =>
    match utf8DecodeChar1 (b :: rest) with
    | some (c, rest2) =>
      match utf8DecodeLoop fuel rest2 with
      | some s => some (c :: s)
      | none => none
    | none => none

/-- UTF-8 decoding (what decodeURIComponent(escape(-)) computes), failing
on malformed input exactly where the browser primitive throws. -/
def utf8Decode (bs : List Nat) : Option (List Char) :=
  utf8DecodeLoop bs.length bs

/-- The base64 alphabet. -/
def b64Alpha : List Char :=
  ("ABCDEFGHIJKLMNOPQRSTUVWXYZabcdefghijklmnopqrstuvwxyz0123456789+/").toList

/-- Character of a sextet. -/
def b64Char (n : Nat) : Char := b64Alpha.getD n 'A'

/-- Sextet of an alphabet character. -/
def b64Index (c : Char) : Option Nat := b64Alpha.findIdx? (fun x => x == c)

/-- window.btoa: base64 of a byte string. -/
def btoa : List Nat → List Char
  | [] => []
  | [a] => [b64Char (a / 4), b64Char (a % 4 * 16), '=', '=']
  | [a, b] => [b64Char (a / 4), b64Char (a % 4 * 16 + b / 16), b64Char (b % 16 * 4), '=']
  | a :: b :: c :: rest =>
    b64Char (a / 4) :: b64Char (a % 4 * 16 + b / 16) :: b64Char (b % 16 * 4 + c / 64)
    :: b64Char (c % 64) :: btoa rest

/-- window.atob: base64 decoding, failing (as atob throws) on strings
that are not well-formed base64. -/
def atob : List Char → Option (List Nat)
  | [] => some []
  | c1 :: c2 :: c3 :: c4 :: rest =>
    match b64Index c1, b64Index c2 with
    | some n1, some n2 =>
      if c3 = '=' then
        if c4 = '=' then (if rest.isEmpty then some [n1 * 4 + n2 / 16] else none) else none
      else
        match b64Index c3 with
        | some n3 =>
          if c4 = '=' then
            if rest.isEmpty then some [n1 * 4 + n2 / 16, n2 % 16 * 16 + n3 / 4] else none
          else
            match b64Index c4 with
            | some n4 =>
              match atob rest with
              | some bs =>
                some ((n1 * 4 + n2 / 16) :: (n2 % 16 * 16 + n3 / 4) :: (n3 % 4 * 64 + n4) :: bs)
              | none => none
            | none => none
        | none => none
    | _, _ => none
  | _ => none

/-- The transport encoding pipeline
btoa(unescape(encodeURIComponent(JSON.stringify(-)))) applied to an
arbitrary transport object. -/
def transportEncode (snap : Snapshot) : String :=
  String.mk (btoa (utf8Encode (stringifySnap snap)))

/-- function encodeState(items, weights, context): the transport string
of \x7b v: 1, items: items.map((\x7bid, value\x7d) => (\x7bid, value\x7d)), weights, context \x7d. -/
def encodeState (items : List MetricItem) (weights : Weights)
    (context : AssessmentContext) : String :=
  transportEncode ⟨1, items.map (fun i => ⟨i.id, i.value⟩), weights, context⟩

/-- function decodeState(s): JSON.parse(decodeURIComponent(escape(atob(s))))
inside try/catch; any failure yields null (none). -/
def decodeState (s : String) : Option Snapshot :=
  match atob s.toList with
  | none => none
  | some bytes =>
    match utf8Decode bytes with
    | none => none
    | some cs =>
      match parseSnap cs.length cs with
      | some (snap, []) => some snap
      | some (_, _ :: _) => none
      | none => none

/-- A JavaScript value as produced by JSON.parse: the dynamic model used
for the state initializers, which consume parsed JSON by duck typing. -/
inductive Json where
  | num (x : JsNum)
  | str (s : String)
  | bool (b : Bool)
  | null
  | arr (xs : List Json)
  | obj (fields : List (String × Json))

/-- JSON whitespace. -/
def isWs (c : Char) : Bool :=
  c = ' ' || c = Char.ofNat 9 || c = Char.ofNat 10 || c = Char.ofNat 13

/-- Drop leading JSON whitespace. -/
def skipWs : List Char → List Char
  | [] => []
  | c :: rest => if isWs c then skipWs rest else c :: rest

/-- JSON forbids leading zeros in the integer part of a number. -/
def leadZeroBad : List Char → Bool
  | '0' :: d :: _ => isDig d
  | '-' :: '0' :: d :: _ => isDig d
  | _ => false

/-- A full JSON number token: the decimal grammar of the transport
parser, plus JSON's optional exponent part, normalised into a JsNum. -/
def parseJsonNum (cs : List Char) : Option (JsNum × List Char) :=
  if leadZeroBad cs then none
  else
    match parseNum cs with
    | some (x, rest) =>
      match rest with
      | [] => some (x, [])
      | c :: rest2 =>
        if c = 'e' ∨ c = 'E' then
          match rest2 with
          | [] => none
          | s :: rest3 =>
            let digs := if s = '+' ∨ s = '-' then rest3 else s :: rest3
            match digs with
            | [] => none
            | d :: _ =>
              if isDig d then
                match parseDigits digs 0 0 with
                | (k, _, rest4) =>
                  if s = '-' then some (⟨x.m, x.e + k⟩, rest4)
                  else if x.e ≤ k then some (⟨x.m * (10 : Int) ^ (k - x.e), 0⟩, rest4)
                  else some (⟨x.m, x.e - k⟩, rest4)
              else none
        else some (x, c :: rest2)
    | none => none

/-- The task being parsed at a point of the JSON grammar: a value, an
array body or tail, or an object body or tail. -/
inductive JTask where
  | val
  | arrBody
  | arrTail
  | objBody
  | objTail

/-- The result a task produces: a value, an element list, or a member
list. -/
inductive JRes where
  | v (j : Json)
  | vs (js : List Json)
  | fs (fields : List (String × Json))

/-- The recursive JSON grammar, structurally recursive on fuel: every
recursive call (one per nesting level or element separator) spends one
unit, so fuel proportional to the input length dominates any input. -/
def jsonRun : Nat → JTask → List Char → Option (JRes × List Char)
  | 0, _, _ => none
  | fuel + 1, JTask.val, cs =>
    match cs with
    | [] => none
    | c :: cs2 =>
      if c = '"' then
        match parseQString (c :: cs2) with
        | some (s, rest) => some (JRes.v (Json.str s), rest)
        | none => none
      else if c = 't' then
        match expect (("true").toList) (c :: cs2) with
        | some rest => some (JRes.v (Json.bool true), rest)
        | none => none
      else if c = 'f' then
        match expect (("false").toList) (c :: cs2) with
        | some rest => some (JRes.v (Json.bool false), rest)
        | none => none
      else if c = 'n' then
        match expect (("null").toList) (c :: cs2) with
        | some rest => some (JRes.v Json.null, rest)
        | none => none
      else if c = '[' then jsonRun fuel JTask.arrBody (skipWs cs2)
      else if c = '\x7b' then jsonRun fuel JTask.objBody (skipWs cs2)
      else
        match parseJsonNum (c :: cs2) with
        | some (x, rest) => some (JRes.v (Json.num x), rest)
        | none => none
  | fuel + 1, JTask.arrBody, cs =>
    match cs with
    | ']' :: rest => some (JRes.v (Json.arr []), rest)
    | _ =>
      match jsonRun fuel JTask.val cs with
      | some (JRes.v j, rest) =>
        match jsonRun fuel JTask.arrTail (skipWs rest) with
        | some (JRes.vs js, rest2) => some (JRes.v (Json.arr (j :: js)), rest2)
        | _ => none
      | _ => none
  | fuel + 1, JTask.arrTail, cs =>
    match cs with
    | ']' :: rest => some (JRes.vs [], rest)
    | ',' :: cs2 =>
      match jsonRun fuel JTask.val (skipWs cs2) with
      | some (JRes.v j, rest) =>
        match jsonRun fuel JTask.arrTail (skipWs rest) with
        | some (JRes.vs js, rest2) => some (JRes.vs (j :: js), rest2)
        | _ => none
      | _ => none
    | _ => none
  | fuel + 1, JTask.objBody, cs =>
    match cs with
    | '\x7d' :: rest => some (JRes.v (Json.obj []), rest)
    | _ =>
      match parseQString cs with
      | some (k, rest) =>
        match skipWs rest with
        | ':' :: rest2 =>
          match jsonRun fuel JTask.val (skipWs rest2) with
          | some (JRes.v v, rest3) =>
            match jsonRun fuel JTask.objTail (skipWs rest3) with
            | some (JRes.fs fields, rest4) =>
              some (JRes.v (Json.obj ((k, v) :: fields)), rest4)
            | _ => none
          | _ => none
        | _ => none
      | none => none
  | fuel + 1, JTask.objTail, cs =>
    match cs with
    | '\x7d' :: rest => some (JRes.fs [], rest)
    | ',' :: cs2 =>
      match parseQString (skipWs cs2) with
      | some (k, rest) =>
        match skipWs rest with
        | ':' :: rest2 =>
          match jsonRun fuel JTask.val (skipWs rest2) with
          | some (JRes.v v, rest3) =>
            match jsonRun fuel JTask.objTail (skipWs rest3) with
            | some (JRes.fs fields, rest4) => some (JRes.fs ((k, v) :: fields), rest4)
            | _ => none
          | _ => none
        | _ => none
      | none => none
    | _ => none

/-- Parse one JSON value. -/
def jsonParseVal (fuel : Nat) (cs : List Char) : Option (Json × List Char) :=
  match jsonRun fuel JTask.val cs with
  | some (JRes.v j, rest) => some (j, rest)
  | _ => none

/-- JSON.parse: a complete JSON text (with surrounding whitespace), or
failure where the browser primitive throws. -/
def jsonParse (s : String) : Option Json :=
  match jsonParseVal (2 * s.toList.length + 2) (skipWs s.toList) with
  | some (j, rest) => if skipWs rest = [] then some j else none
  | none => none

/-- decodeState in the dynamic model: atob, UTF-8 decode, JSON.parse,
returning whatever JSON value the payload carries (no schema applied),
null (none) on any failure.  The schema-typed decodeState above is this
pipeline specialised to the transport shape; on canonical encodeState
output — the domain of the round-trip claims — the two agree. -/
def decodeStateDyn (s : String) : Option Json :=
  match atob s.toList with
  | some bytes =>
    match utf8Decode bytes with
    | some cs =>
      match jsonParseVal (2 * cs.length + 2) (skipWs cs) with
      | some (j, rest) => if skipWs rest = [] then some j else none
      | none => none
    | none => none
  | none => none

/-- Truthiness of a JavaScript value producible by JSON.parse. -/
def jsTruthy : Json → Bool
  | Json.null => false
  | Json.bool b => b
  | Json.num x => decide (x.m ≠ 0)
  | Json.str s => decide (s ≠ "")
  | Json.arr _ => true
  | Json.obj _ => true

/-- Property lookup on a parsed object: later duplicate keys overwrite
earlier ones, as in JSON.parse. -/
def jsObjGet (fields : List (String × Json)) (key : String) : Option Json :=
  List.lookup key fields.reverse

/-- Optional-chained member access state?.key: undefined (none) on null
and on every non-object value. -/
def jsOptMember : Json → String → Option Json
  | Json.obj fields, key => jsObjGet fields key
  | _, _ => none

/-- if (state?.key): the member when it is present and truthy. -/
def jsField (st : Json) (key : String) : Option Json :=
  match jsOptMember st key with
  | some v => if jsTruthy v then some v else none
  | none => none

/-- Plain member access p.key: a TypeError (error) on null, undefined
(ok none) on other non-objects, the property on objects. -/
def jsMemberStrict : Json → String → Except Unit (Option Json)
  | Json.null, _ => Except.error ()
  | Json.obj fields, key => Except.ok (jsObjGet fields key)
  | _, _ => Except.ok none

/-- parsed.map(p => [p.id, p.value]): the Map entry list, or a TypeError
when some entry is null. -/
def itemPairs : List Json → Except Unit (List (Option Json × Option Json))
  | [] => Except.ok []
  | p :: rest =>
    match jsMemberStrict p "id", jsMemberStrict p "value" with
    | Except.ok kid, Except.ok kval =>
      match itemPairs rest with
      | Except.ok prs => Except.ok ((kid, kval) :: prs)
      | Except.error e => Except.error e
    | _, _ => Except.error ()

/-- Does a Map key (which may be undefined or any value) equal the given
string id under SameValueZero? -/
def isKeyStr (k : Option Json) (id : String) : Bool :=
  match k with
  | some (Json.str s) => s == id
  | _ => false

/-- map.get(id) on the Map built from the entry list: the last entry for
the key wins; none when the key is absent. -/
def dynMapGet (prs : List (Option Json × Option Json)) (id : String) :
    Option (Option Json) :=
  (prs.reverse.find? (fun pr => isKeyStr pr.1 id)).map Prod.snd

/-- A metric item whose current value is a dynamic JavaScript value: the
duck-typed merge can store non-numbers. -/
structure DynMetricItem where
  id : String
  label : String
  help : String
  group : Group
  value : Json

/-- map.get(d.id) ?? d.value: the stored value unless the key is absent
or its stored value is undefined or null. -/
def mergedValue (prs : List (Option Json × Option Json)) (d : MetricItem) : Json :=
  match dynMapGet prs d.id with
  | some (some Json.null) => Json.num ⟨d.value, 0⟩
  | some (some v) => v
  | some none => Json.num ⟨d.value, 0⟩
  | none => Json.num ⟨d.value, 0⟩

/-- defaultItems.map(d => (\x7b ...d, value: map.get(d.id) ?? d.value \x7d))
over the dynamic Map entries. -/
def mergeItemsDyn (prs : List (Option Json × Option Json)) : List DynMetricItem :=
  defaultItems.map (fun d => ⟨d.id, d.label, d.help, d.group, mergedValue prs d⟩)

/-- The catalog defaults as dynamic items. -/
def defaultItemsDyn : List DynMetricItem :=
  defaultItems.map (fun d => ⟨d.id, d.label, d.help, d.group, Json.num ⟨d.value, 0⟩⟩)

/-- The try-block body for a parsed persisted items blob: the merged
items when parsed.map succeeds (parsed is an array without null
entries, any key order), none when it throws — which the surrounding
try/catch turns into a fall-through. -/
def mergeFromJson (j : Json) : Option (List DynMetricItem) :=
  match j with
  | Json.arr xs =>
    match itemPairs xs with
    | Except.ok prs => some (mergeItemsDyn prs)
    | Except.error _ => none
  | _ => none

/-- state.items.map(...) in the hash path: no try/catch guards this call,
so a truthy non-array items field or a null entry raises a TypeError to
the caller. -/
def mergeFromHashItems (itemsJ : Json) : Except Unit (List DynMetricItem) :=
  match itemsJ with
  | Json.arr xs =>
    match itemPairs xs with
    | Except.ok prs => Except.ok (mergeItemsDyn prs)
    | Except.error e => Except.error e
  | _ => Except.error ()

/-- defaultWeights as the dynamic value JSON.parse round-trips it to. -/
def defaultWeightsJson : Json :=
  Json.obj [("capacityWeight", Json.num ⟨5, 1⟩), ("adaptabilityWeight", Json.num ⟨5, 1⟩)]

/-- defaultContext as a dynamic value. -/
def defaultContextJson (today : String) : Json :=
  Json.obj [("teamName", Json.str ""), ("department", Json.str ""),
    ("assessmentDate", Json.str today), ("assessorName", Json.str ""),
    ("assessmentPurpose", Json.str "")]

/-- The URL-fragment fallback of the items initializer (lines 189-198):
decode, and when state?.items is truthy merge from it — unguarded, so it
can raise — otherwise return the defaults. -/
def itemsFromHashDyn (hash : String) : Except Unit (List DynMetricItem) :=
  if hash = "" then Except.ok defaultItemsDyn
  else
    match decodeStateDyn hash with
    | some st =>
      match jsField st "items" with
      | some itemsJ => mergeFromHashItems itemsJ
      | none => Except.ok defaultItemsDyn
    | none => Except.ok defaultItemsDyn

/-- The items useState initializer (lines 179-199): try the persisted
blob — any JSON.parse failure or .map TypeError inside the try block is
caught and falls through — then the URL fragment, then the defaults. -/
def initItemsDyn (saved : Option String) (hash : String) :
    Except Unit (List DynMetricItem) :=
  match saved with
  | some s =>
    if s = "" then itemsFromHashDyn hash
    else
      match jsonParse s with
      | some j =>
        match mergeFromJson j with
        | some its => Except.ok its
        | none => itemsFromHashDyn hash
      | none => itemsFromHashDyn hash
  | none => itemsFromHashDyn hash

/-- The URL-fragment fallback of the weights initializer (lines 208-212):
adopt state.weights whenever it is present and truthy, whatever its
shape. -/
def weightsFromHashDyn (hash : String) : Json :=
  if hash = "" then defaultWeightsJson
  else
    match decodeStateDyn hash with
    | some st =>
      match jsField st "weights" with
      | some w => w
      | none => defaultWeightsJson
    | none => defaultWeightsJson

/-- The weights useState initializer (lines 201-214): return
JSON.parse(saved) with no shape check — any parsed value is adopted;
only a parse failure (or an absent or empty blob) falls through. -/
def initWeightsDyn (saved : Option String) (hash : String) : Json :=
  match saved with
  | some s =>
    if s = "" then weightsFromHashDyn hash
    else
      match jsonParse s with
      | some j => j
      | none => weightsFromHashDyn hash
  | none => weightsFromHashDyn hash

/-- The URL-fragment fallback of the context initializer (lines 223-227). -/
def contextFromHashDyn (today : String) (hash : String) : Json :=
  if hash = "" then defaultContextJson today
  else
    match decodeStateDyn hash with
    | some st =>
      match jsField st "context" with
      | some c => c
      | none => defaultContextJson today
    | none => defaultContextJson today

/-- The context useState initializer (lines 216-229): return
JSON.parse(saved) with no shape check, exactly like the weights. -/
def initContextDyn (today : String) (saved : Option String) (hash : String) : Json :=
  match saved with
  | some s =>
    if s = "" then contextFromHashDyn today hash
    else
      match jsonParse s with
      | some j => j
      | none => contextFromHashDyn today hash
  | none => contextFromHashDyn today hash

/-- The persisted items blob falls through when it is absent, empty, does
not JSON-parse, or parses but parsed.map throws inside the try block. -/
def blobMissItems : Option String → Prop
  | none => True
  | some s => s = "" ∨ jsonParse s = none
      ∨ ∃ j, jsonParse s = some j ∧ mergeFromJson j = none

/-- A persisted weights or context blob falls through only when it is
absent, empty or does not JSON-parse — a successfully parsed value of
any shape is adopted. -/
def blobMissJson : Option String → Prop
  | none => True
  | some s => s = "" ∨ jsonParse s = none

/-- The URL fragment contributes nothing for a key when it is empty, does
not decode, or decodes to a value whose key field is absent or falsy. -/
def hashFieldMiss (key : String) (hash : String) : Prop :=
  hash = "" ∨ decodeStateDyn hash = none
    ∨ ∃ st, decodeStateDyn hash = some st ∧ jsField st key = none

/-! ### Round-trip lemmas: tokens, digits and numbers -/

theorem expect_append (ps rest : List Char) : expect ps (ps ++ rest) = some rest := by
  induction ps with
  | nil => rfl
  | cons p ps ih => simp [expect, ih]

theorem digChar_isDig : ∀ n, n < 10 → isDig (digChar n) = true := by decide

theorem digChar_val : ∀ n, n < 10 → (digChar n).toNat - 48 = n := by decide

theorem natDigits_ne_nil (n : Nat) : natDigits n ≠ [] := by
  induction n using natDigits.induct with
  | case1 n h => simp [natDigits, h]
  | case2 n h ih => rw [natDigits]; simp [h]

theorem natDigits_all_dig (n : Nat) : ∀ c ∈ natDigits n, isDig c = true := by
  induction n using natDigits.induct with
  | case1 n h =>
    intro c hc
    rw [natDigits, if_pos h] at hc
    simp at hc
    subst hc
    exact digChar_isDig n h
  | case2 n h ih =>
    intro c hc
    rw [natDigits, if_neg h] at hc
    rcases List.mem_append.mp hc with hc | hc
    · exact ih c hc
    · simp at hc
      subst hc
      exact digChar_isDig _ (Nat.mod_lt _ (by omega))

theorem parseDigits_eq (ds : List Char) : ∀ rest acc cnt, (∀ c ∈ ds, isDig c = true) →
    digStop rest = true →
    parseDigits (ds ++ rest) acc cnt
      = (ds.foldl (fun a c => a * 10 + (c.toNat - 48)) acc, cnt + ds.length, rest) := by
  induction ds with
  | nil =>
    intro rest acc cnt _ hrest
    cases rest with
    | nil => rfl
    | cons c cs =>
      have hc : isDig c = false := by simpa [digStop] using hrest
      simp [parseDigits, hc]
  | cons d ds ih =>
    intro rest acc cnt hds hrest
    have hd : isDig d = true := hds d (by simp)
    simp only [List.cons_append, parseDigits, hd, if_true, List.foldl_cons, List.append_eq]
    rw [ih rest _ _ (fun c hc => hds c (by simp [hc])) hrest]
    simp
    omega

theorem natDigits_foldl (n : Nat) : ∀ acc,
    (natDigits n).foldl (fun a c => a * 10 + (c.toNat - 48)) acc
      = acc * 10 ^ (natDigits n).length + n := by
  induction n using natDigits.induct with
  | case1 n h =>
    intro acc
    rw [natDigits, if_pos h]
    simp [digChar_val n h]
  | case2 n h ih =>
    intro acc
    rw [natDigits, if_neg h, List.foldl_append, ih acc]
    have hd : (digChar (n % 10)).toNat - 48 = n % 10 :=
      digChar_val _ (Nat.mod_lt _ (by omega))
    simp only [List.foldl_cons, List.foldl_nil, List.length_append, List.length_cons,
      List.length_nil, hd]
    have hpow : 10 ^ ((natDigits (n / 10)).length + (0 + 1))
        = 10 ^ (natDigits (n / 10)).length * 10 := by
      rw [pow_succ]
    rw [hpow]
    generalize (10 : Nat) ^ (natDigits (n / 10)).length = K
    have : acc * (K * 10) = acc * K * 10 := by ring
    rw [this]
    omega

theorem natDigits_length_le : ∀ n e, 1 ≤ e → n < 10 ^ e → (natDigits n).length ≤ e := by
  intro n
  induction n using natDigits.induct with
  | case1 n h =>
    intro e he _
    rw [natDigits, if_pos h]
    simpa using he
  | case2 n h ih =>
    intro e he hlt
    rw [natDigits, if_neg h]
    have he2 : 2 ≤ e := by
      by_contra hc
      have he1 : e = 1 := by omega
      rw [he1] at hlt
      simp at hlt
      omega
    have hdiv : n / 10 < 10 ^ (e - 1) := by
      rw [Nat.div_lt_iff_lt_mul (by omega)]
      calc n < 10 ^ e := hlt
        _ = 10 ^ (e - 1) * 10 := by
          rw [← pow_succ]
          congr 1
          omega
    have := ih (e - 1) (by omega) hdiv
    simp only [List.length_append, List.length_cons, List.length_nil]
    omega

theorem foldl_replicate_zero (m : Nat) : ∀ acc,
    (List.replicate m '0').foldl (fun a c => a * 10 + (c.toNat - 48)) acc = acc * 10 ^ m := by
  induction m with
  | zero => intro acc; simp
  | succ k ih =>
    intro acc
    rw [List.replicate_succ, List.foldl_cons, ih]
    have h0 : ('0'.toNat - 48) = 0 := rfl
    rw [h0]
    ring

theorem padDigits_all_dig (k e : Nat) : ∀ c ∈ padDigits k e, isDig c = true := by
  intro c hc
  rcases List.mem_append.mp hc with hc | hc
  · have : c = '0' := List.eq_of_mem_replicate hc
    subst this
    rfl
  · exact natDigits_all_dig k c hc

theorem padDigits_ne_nil (k e : Nat) : padDigits k e ≠ [] := by
  intro h
  rcases List.append_eq_nil.mp h with ⟨_, h2⟩
  exact natDigits_ne_nil k h2

theorem padDigits_length (k e : Nat) (h1 : 1 ≤ e) (h2 : k < 10 ^ e) :
    (padDigits k e).length = e := by
  have hle := natDigits_length_le k e h1 h2
  simp only [padDigits, List.length_append, List.length_replicate]
  omega

theorem padDigits_foldl (k e : Nat) (h1 : 1 ≤ e) (h2 : k < 10 ^ e) : ∀ acc,
    (padDigits k e).foldl (fun a c => a * 10 + (c.toNat - 48)) acc = acc * 10 ^ e + k := by
  intro acc
  have hle := natDigits_length_le k e h1 h2
  rw [padDigits, List.foldl_append, foldl_replicate_zero, natDigits_foldl]
  rw [mul_assoc, ← pow_add]
  congr 3
  omega

theorem natPart_cons (n e : Nat) : ∃ d ds, natPart n e = d :: ds ∧ isDig d = true := by
  by_cases he : e = 0
  · subst he
    cases h : natDigits n with
    | nil => exact absurd h (natDigits_ne_nil n)
    | cons d ds =>
      refine ⟨d, ds, by simp [natPart, h], ?_⟩
      exact natDigits_all_dig n d (by rw [h]; simp)
  · cases h : natDigits (n / 10 ^ e) with
    | nil => exact absurd h (natDigits_ne_nil _)
    | cons d ds =>
      refine ⟨d, ds ++ '.' :: padDigits (n % 10 ^ e) e, by simp [natPart, he, h], ?_⟩
      exact natDigits_all_dig _ d (by rw [h]; simp)

theorem numStop_digStop (rest : List Char) (hr : numStop rest = true) : digStop rest = true := by
  cases rest with
  | nil => rfl
  | cons c cs =>
    simp [numStop, Bool.and_eq_true] at hr
    simp [digStop, hr.1]

theorem parseNumNat_natPart (n e : Nat) (rest : List Char) (hr : numStop rest = true) :
    parseNumNat (natPart n e ++ rest) = some ((n, e), rest) := by
  have hds : digStop rest = true := numStop_digStop rest hr
  by_cases he : e = 0
  · subst he
    rw [show natPart n 0 = natDigits n from by simp [natPart]]
    cases hnd : natDigits n with
    | nil => exact absurd hnd (natDigits_ne_nil n)
    | cons d ds =>
      have hd : isDig d = true := natDigits_all_dig n d (by rw [hnd]; simp)
      simp only [List.cons_append]
      simp only [parseNumNat, hd, if_true]
      rw [← List.cons_append, ← hnd,
        parseDigits_eq (natDigits n) rest 0 0 (natDigits_all_dig n) hds,
        natDigits_foldl]
      simp only [Nat.zero_mul, Nat.zero_add]
      cases rest with
      | nil => rfl
      | cons r rs =>
        have hnr : isDig r = false ∧ (r == '.') = false := by
          simpa [numStop, Bool.and_eq_true] using hr
        have hr2 : r ≠ '.' := by simpa using hnr.2
        simp [hr2]
  · have he1 : 1 ≤ e := by omega
    have hb : n % 10 ^ e < 10 ^ e := Nat.mod_lt _ (by positivity)
    rw [show natPart n e
        = natDigits (n / 10 ^ e) ++ '.' :: padDigits (n % 10 ^ e) e from by simp [natPart, he]]
    cases hnd : natDigits (n / 10 ^ e) with
    | nil => exact absurd hnd (natDigits_ne_nil _)
    | cons d ds =>
      have hd : isDig d = true := natDigits_all_dig _ d (by rw [hnd]; simp)
      simp only [List.cons_append, List.append_assoc]
      simp only [parseNumNat, hd, if_true]
      rw [← List.cons_append, ← hnd]
      rw [parseDigits_eq (natDigits (n / 10 ^ e)) ('.' :: (padDigits (n % 10 ^ e) e ++ rest))
        0 0 (natDigits_all_dig _) rfl, natDigits_foldl]
      simp only [Nat.zero_mul, Nat.zero_add]
      cases hpd : padDigits (n % 10 ^ e) e with
      | nil => exact absurd hpd (padDigits_ne_nil _ _)
      | cons p ps =>
        have hp : isDig p = true := padDigits_all_dig _ _ p (by rw [hpd]; simp)
        simp only [List.cons_append, hp, if_true]
        rw [← List.cons_append, ← hpd,
          parseDigits_eq (padDigits (n % 10 ^ e) e) rest 0 0 (padDigits_all_dig _ _) hds,
          padDigits_foldl _ _ he1 hb, padDigits_length _ _ he1 hb]
        simp only [Nat.zero_mul, Nat.zero_add, Nat.zero_add]
        rw [Nat.div_add_mod']

theorem natPart_head_ne (n e : Nat) (d : Char) (ds : List Char)
    (h : natPart n e = d :: ds) : d ≠ '-' := by
  obtain ⟨d2, ds2, h2, hd2⟩ := natPart_cons n e
  rw [h] at h2
  injection h2 with h3 _
  subst h3
  intro hdm
  rw [hdm] at hd2
  exact absurd hd2 (by decide)

theorem parseNum_append (x : JsNum) (rest : List Char) (hr : numStop rest = true) :
    parseNum (numToChars x ++ rest) = some (x, rest) := by
  rcases x with ⟨m, e⟩
  by_cases hm : m < 0
  · rw [show numToChars ⟨m, e⟩ = '-' :: natPart m.natAbs e from by
      simp [numToChars, hm]]
    rw [List.cons_append]
    simp only [parseNum, if_pos rfl]
    rw [parseNumNat_natPart m.natAbs e rest hr]
    have hma : -((m.natAbs : Int)) = m := by omega
    rw [if_pos trivial]
    show some ((⟨-((m.natAbs : Int)), e⟩ : JsNum), rest) = some (⟨m, e⟩, rest)
    rw [hma]
  · rw [show numToChars ⟨m, e⟩ = natPart m.natAbs e from by
      simp [numToChars, hm]]
    obtain ⟨d, ds, hnp, hd⟩ := natPart_cons m.natAbs e
    have hdm : d ≠ '-' := natPart_head_ne _ _ _ _ hnp
    rw [hnp, List.cons_append]
    simp only [parseNum, hdm, if_false]
    rw [← List.cons_append, ← hnp, parseNumNat_natPart m.natAbs e rest hr]
    have hma : ((m.natAbs : Int)) = m := by omega
    show some ((⟨((m.natAbs : Int)), e⟩ : JsNum), rest) = some (⟨m, e⟩, rest)
    rw [hma]

theorem parseIntNum_append (i : Int) (rest : List Char) (hr : numStop rest = true) :
    parseIntNum (numToChars ⟨i, 0⟩ ++ rest) = some (i, rest) := by
  simp only [parseIntNum, parseNum_append ⟨i, 0⟩ rest hr]
  simp

/-! ### Round-trip lemmas: strings -/

theorem hexVal_hexChar : ∀ n, n < 16 → hexVal (hexChar n) = some n := by decide

theorem parseJStrAux_esc (l : List Char) : ∀ rest,
    parseJStrAux (escString l ++ '"' :: rest) = some (l, rest) := by
  induction l with
  | nil =>
    intro rest
    rw [show escString [] ++ '"' :: rest = '"' :: rest from rfl, parseJStrAux.eq_def]
    simp
  | cons c l ih =>
    intro rest
    rw [show escString (c :: l) ++ '"' :: rest = escChar c ++ (escString l ++ '"' :: rest) from by
      simp [escString]]
    by_cases h1 : c = '"'
    · subst h1
      rw [show escChar '"' = ['\\', '"'] from rfl]
      simp only [List.cons_append, List.nil_append]
      rw [parseJStrAux.eq_def]
      simp [unescape1, ih]
    by_cases h2 : c = '\\'
    · subst h2
      rw [show escChar '\\' = ['\\', '\\'] from rfl]
      simp only [List.cons_append, List.nil_append]
      rw [parseJStrAux.eq_def]
      simp [unescape1, ih]
    by_cases h3 : c = Char.ofNat 8
    · subst h3
      rw [show escChar (Char.ofNat 8) = ['\\', 'b'] from rfl]
      simp only [List.cons_append, List.nil_append]
      rw [parseJStrAux.eq_def]
      simp [unescape1, ih]
    by_cases h4 : c = Char.ofNat 9
    · subst h4
      rw [show escChar (Char.ofNat 9) = ['\\', 't'] from rfl]
      simp only [List.cons_append, List.nil_append]
      rw [parseJStrAux.eq_def]
      simp [unescape1, ih]
    by_cases h5 : c = Char.ofNat 10
    · subst h5
      rw [show escChar (Char.ofNat 10) = ['\\', 'n'] from rfl]
      simp only [List.cons_append, List.nil_append]
      rw [parseJStrAux.eq_def]
      simp [unescape1, ih]
    by_cases h6 : c = Char.ofNat 12
    · subst h6
      rw [show escChar (Char.ofNat 12) = ['\\', 'f'] from rfl]
      simp only [List.cons_append, List.nil_append]
      rw [parseJStrAux.eq_def]
      simp [unescape1, ih]
    by_cases h7 : c = Char.ofNat 13
    · subst h7
      rw [show escChar (Char.ofNat 13) = ['\\', 'r'] from rfl]
      simp only [List.cons_append, List.nil_append]
      rw [parseJStrAux.eq_def]
      simp [unescape1, ih]
    by_cases h8 : c.toNat < 32
    · rw [show escChar c = ['\\', 'u', '0', '0', hexChar (c.toNat / 16), hexChar (c.toNat % 16)]
        from by simp [escChar, h1, h2, h3, h4, h5, h6, h7, h8]]
      have ha := hexVal_hexChar (c.toNat / 16) (by omega)
      have hb := hexVal_hexChar (c.toNat % 16) (by omega)
      have h0 : hexVal '0' = some 0 := rfl
      have hcode : c.toNat / 16 * 16 + c.toNat % 16 = c.toNat := Nat.div_add_mod' _ _
      simp only [List.cons_append, List.nil_append]
      rw [parseJStrAux.eq_def]
      simp [ha, hb, h0, hcode, Char.ofNat_toNat, ih]
    · rw [show escChar c = [c] from by simp [escChar, h1, h2, h3, h4, h5, h6, h7, h8]]
      simp only [List.cons_append, List.nil_append]
      rw [parseJStrAux.eq_def]
      simp [h1, h2, ih]

theorem parseQString_qstr (s : String) (rest : List Char) :
    parseQString (qstr s ++ rest) = some (s, rest) := by
  rw [show qstr s ++ rest = '"' :: (escString s.toList ++ '"' :: rest) from by simp [qstr]]
  simp only [parseQString, if_pos rfl, parseJStrAux_esc]
  rfl

/-! ### Round-trip lemmas: transport structures -/

theorem numStop_close (rest : List Char) : numStop (litClose ++ rest) = true := rfl

theorem numStop_itemsKey (rest : List Char) : numStop (litItemsKey ++ rest) = true := rfl

theorem numStop_wMid (rest : List Char) : numStop (litWMid ++ rest) = true := rfl

theorem parseItem_strItem (it : SnapItem) (rest : List Char) :
    parseItem (strItem it ++ rest) = some (it, rest) := by
  rw [show strItem it ++ rest
      = litItemOpen ++ (qstr it.id ++ (litItemVal
        ++ (numToChars ⟨it.value, 0⟩ ++ (litClose ++ rest)))) from by simp [strItem]]
  simp only [parseItem, expect_append, Option.some_bind, parseQString_qstr,
    parseIntNum_append, numStop_close]

theorem parseItemsRest_rt (its : List SnapItem) : ∀ fuel rest, its.length ≤ fuel →
    parseItemsRest fuel (strItemsRest its ++ rest) = some (its, rest) := by
  induction its with
  | nil =>
    intro fuel rest _
    rw [show strItemsRest [] ++ rest = ']' :: rest from rfl]
    cases fuel <;> simp [parseItemsRest]
  | cons it more ih =>
    intro fuel rest hf
    rw [show strItemsRest (it :: more) ++ rest
        = ',' :: (strItem it ++ (strItemsRest more ++ rest)) from by simp [strItemsRest]]
    cases fuel with
    | zero => simp at hf
    | succ fuel =>
      have ihh := ih fuel rest (by simp at hf; omega)
      rw [parseItemsRest.eq_def]
      simp [parseItem_strItem, Option.some_bind, ihh]

theorem parseItemsArr_rt (its : List SnapItem) (fuel : Nat) (rest : List Char)
    (hf : its.length ≤ fuel) :
    parseItemsArr fuel (strItemsArr its ++ rest) = some (its, rest) := by
  cases its with
  | nil =>
    rw [show strItemsArr [] ++ rest = '[' :: (']' :: rest) from rfl]
    simp [parseItemsArr]
  | cons it more =>
    have hmore : more.length ≤ fuel := by simp at hf; omega
    rw [show strItemsArr (it :: more) ++ rest
        = '[' :: (strItem it ++ (strItemsRest more ++ rest)) from by simp [strItemsArr]]
    have hexp : strItem it ++ (strItemsRest more ++ rest)
        = '\x7b' :: ((("\"id\":").toList ++ (qstr it.id ++ (litItemVal
          ++ (numToChars ⟨it.value, 0⟩ ++ (litClose ++ (strItemsRest more ++ rest))))))) := by
      simp [strItem, litItemOpen]
    rw [hexp]
    simp only [parseItemsArr]
    rw [if_pos trivial, if_neg (by decide : ¬('\x7b' : Char) = ']')]
    rw [← hexp, parseItem_strItem, Option.some_bind, parseItemsRest_rt more fuel rest hmore]
    rfl

theorem parseWeightsObj_rt (w : Weights) (rest : List Char) :
    parseWeightsObj (strWeightsObj w ++ rest) = some (w, rest) := by
  rw [show strWeightsObj w ++ rest = litWOpen ++ (numToChars w.capacityWeight ++ (litWMid
      ++ (numToChars w.adaptabilityWeight ++ (litClose ++ rest))))
    from by simp [strWeightsObj]]
  simp only [parseWeightsObj, expect_append, Option.some_bind, parseNum_append,
    numStop_wMid, numStop_close]

theorem parseContextObj_rt (c : AssessmentContext) (rest : List Char) :
    parseContextObj (strContextObj c ++ rest) = some (c, rest) := by
  rw [show strContextObj c ++ rest = litCOpen ++ (qstr c.teamName ++ (litCDep
      ++ (qstr c.department ++ (litCDate ++ (qstr c.assessmentDate ++ (litCAsr
      ++ (qstr c.assessorName ++ (litCPur ++ (qstr c.assessmentPurpose
      ++ (litClose ++ rest)))))))))) from by simp [strContextObj]]
  simp only [parseContextObj, expect_append, Option.some_bind, parseQString_qstr]

theorem parseSnap_rt (snap : Snapshot) (fuel : Nat) (hf : snap.items.length ≤ fuel)
    (rest : List Char) :
    parseSnap fuel (stringifySnap snap ++ rest) = some (snap, rest) := by
  rw [show stringifySnap snap ++ rest = litVKey ++ (numToChars ⟨snap.v, 0⟩ ++ (litItemsKey
      ++ (strItemsArr snap.items ++ (litWeightsKey ++ (strWeightsObj snap.weights
      ++ (litContextKey ++ (strContextObj snap.context ++ (litClose ++ rest))))))))
    from by simp [stringifySnap]]
  simp only [parseSnap, expect_append, Option.some_bind, parseIntNum_append,
    numStop_itemsKey, parseItemsArr_rt snap.items fuel _ hf, parseWeightsObj_rt,
    parseContextObj_rt]

/-! ### Round-trip lemmas: UTF-8 and base64 -/

theorem char_toNat_lt (c : Char) : c.toNat < 1114112 := by
  have h : c.val.toNat < 0xd800 ∨ (0xdfff < c.val.toNat ∧ c.val.toNat < 0x110000) := c.valid
  show c.val.toNat < 1114112
  omega

theorem utf8EncodeChar_lt (c : Char) : ∀ b ∈ utf8EncodeChar c, b < 256 := by
  intro b hb
  have hc := char_toNat_lt c
  by_cases h1 : c.toNat < 128
  · rw [utf8EncodeChar, if_pos h1] at hb
    simp at hb
    omega
  by_cases h2 : c.toNat < 2048
  · rw [utf8EncodeChar, if_neg h1, if_pos h2] at hb
    simp at hb
    rcases hb with hb | hb <;> omega
  by_cases h3 : c.toNat < 65536
  · rw [utf8EncodeChar, if_neg h1, if_neg h2, if_pos h3] at hb
    simp at hb
    rcases hb with hb | hb | hb <;> omega
  · rw [utf8EncodeChar, if_neg h1, if_neg h2, if_neg h3] at hb
    simp at hb
    rcases hb with hb | hb | hb | hb <;> omega

theorem utf8Encode_lt (l : List Char) : ∀ b ∈ utf8Encode l, b < 256 := by
  induction l with
  | nil => intro b hb; simp [utf8Encode] at hb
  | cons c cs ih =>
    intro b hb
    rw [utf8Encode] at hb
    rcases List.mem_append.mp hb with hb | hb
    · exact utf8EncodeChar_lt c b hb
    · exact ih b hb

theorem utf8DecodeChar1_enc (c : Char) (bs : List Nat) :
    utf8DecodeChar1 (utf8EncodeChar c ++ bs) = some (c, bs) := by
  have hc := char_toNat_lt c
  by_cases h1 : c.toNat < 128
  · rw [show utf8EncodeChar c ++ bs = c.toNat :: bs from by
      rw [utf8EncodeChar, if_pos h1]; rfl]
    simp only [utf8DecodeChar1, if_pos h1, Char.ofNat_toNat]
  by_cases h2 : c.toNat < 2048
  · rw [show utf8EncodeChar c ++ bs = (192 + c.toNat / 64) :: ((128 + c.toNat % 64) :: bs) from by
      rw [utf8EncodeChar, if_neg h1, if_pos h2]; rfl]
    simp only [utf8DecodeChar1]
    rw [if_neg (by omega), if_neg (by omega), if_pos (by omega)]
    have hcont : contByte (128 + c.toNat % 64) = true := by simp [contByte]; omega
    rw [if_pos ⟨by rw [hcont], by omega⟩]
    have hrec : (192 + c.toNat / 64 - 192) * 64 + (128 + c.toNat % 64 - 128) = c.toNat := by
      omega
    rw [hrec, Char.ofNat_toNat]
  by_cases h3 : c.toNat < 65536
  · rw [show utf8EncodeChar c ++ bs
        = (224 + c.toNat / 4096) :: ((128 + c.toNat / 64 % 64) :: ((128 + c.toNat % 64) :: bs))
      from by rw [utf8EncodeChar, if_neg h1, if_neg h2, if_pos h3]; rfl]
    simp only [utf8DecodeChar1]
    rw [if_neg (by omega), if_neg (by omega), if_neg (by omega), if_pos (by omega)]
    have hcont2 : contByte (128 + c.toNat / 64 % 64) = true := by simp [contByte]; omega
    have hcont3 : contByte (128 + c.toNat % 64) = true := by simp [contByte]; omega
    have hrec : (224 + c.toNat / 4096 - 224) * 4096 + (128 + c.toNat / 64 % 64 - 128) * 64
        + (128 + c.toNat % 64 - 128) = c.toNat := by omega
    rw [if_pos ⟨by rw [hcont2], by rw [hcont3], by omega, by rw [hrec, Char.ofNat_toNat]⟩]
    rw [hrec, Char.ofNat_toNat]
  · rw [show utf8EncodeChar c ++ bs
        = (240 + c.toNat / 262144) :: ((128 + c.toNat / 4096 % 64)
          :: ((128 + c.toNat / 64 % 64) :: ((128 + c.toNat % 64) :: bs)))
      from by rw [utf8EncodeChar, if_neg h1, if_neg h2, if_neg h3]; rfl]
    simp only [utf8DecodeChar1]
    rw [if_neg (by omega), if_neg (by omega), if_neg (by omega), if_neg (by omega),
      if_pos (by omega)]
    have hcont2 : contByte (128 + c.toNat / 4096 % 64) = true := by simp [contByte]; omega
    have hcont3 : contByte (128 + c.toNat / 64 % 64) = true := by simp [contByte]; omega
    have hcont4 : contByte (128 + c.toNat % 64) = true := by simp [contByte]; omega
    have hrec : (240 + c.toNat / 262144 - 240) * 262144 + (128 + c.toNat / 4096 % 64 - 128)
        * 4096 + (128 + c.toNat / 64 % 64 - 128) * 64 + (128 + c.toNat % 64 - 128)
        = c.toNat := by omega
    rw [if_pos ⟨by rw [hcont2], by rw [hcont3], by rw [hcont4], by omega,
      by rw [hrec, Char.ofNat_toNat]⟩]
    rw [hrec, Char.ofNat_toNat]

theorem utf8EncodeChar_ne_nil (c : Char) : utf8EncodeChar c ≠ [] := by
  rw [utf8EncodeChar]
  by_cases h1 : c.toNat < 128
  · simp [h1]
  by_cases h2 : c.toNat < 2048
  · simp [h1, h2]
  by_cases h3 : c.toNat < 65536
  · simp [h1, h2, h3]
  · simp [h1, h2, h3]

theorem utf8DecodeLoop_rt (l : List Char) : ∀ fuel, l.length ≤ fuel →
    utf8DecodeLoop fuel (utf8Encode l) = some l := by
  induction l with
  | nil =>
    intro fuel _
    cases fuel <;> rfl
  | cons c cs ih =>
    intro fuel hf
    cases fuel with
    | zero => simp at hf
    | succ f =>
      rw [show utf8Encode (c :: cs) = utf8EncodeChar c ++ utf8Encode cs from rfl]
      cases hsh : utf8EncodeChar c with
      | nil => exact absurd hsh (utf8EncodeChar_ne_nil c)
      | cons b t =>
        rw [List.cons_append]
        simp only [utf8DecodeLoop]
        rw [← List.cons_append, ← hsh, utf8DecodeChar1_enc]
        have hcs : cs.length ≤ f := by simp at hf; omega
        simp [ih f hcs]

theorem utf8Encode_length_ge (l : List Char) : l.length ≤ (utf8Encode l).length := by
  induction l with
  | nil => simp [utf8Encode]
  | cons c cs ih =>
    rw [utf8Encode]
    have h1 : 1 ≤ (utf8EncodeChar c).length :=
      List.length_pos.mpr (utf8EncodeChar_ne_nil c)
    simp only [List.length_append, List.length_cons]
    omega

theorem utf8Decode_encode (l : List Char) : utf8Decode (utf8Encode l) = some l := by
  rw [utf8Decode]
  exact utf8DecodeLoop_rt l (utf8Encode l).length (utf8Encode_length_ge l)

theorem b64Index_b64Char : ∀ n, n < 64 → b64Index (b64Char n) = some n := by decide

theorem b64Char_ne_pad : ∀ n, n < 64 → b64Char n ≠ '=' := by decide

theorem atob_btoa (bs : List Nat) (hlt : ∀ b ∈ bs, b < 256) : atob (btoa bs) = some bs := by
  induction bs using btoa.induct with
  | case1 => rfl
  | case2 a =>
    have ha : a < 256 := hlt a (by simp)
    have e1 : b64Index (b64Char (a / 4)) = some (a / 4) := b64Index_b64Char _ (by omega)
    have e2 : b64Index (b64Char (a % 4 * 16)) = some (a % 4 * 16) :=
      b64Index_b64Char _ (by omega)
    have h1 : a / 4 * 4 + a % 4 * 16 / 16 = a := by omega
    rw [btoa, atob.eq_def]
    simp [e1, e2, h1]
    omega
  | case3 a b =>
    have ha : a < 256 := hlt a (by simp)
    have hb : b < 256 := hlt b (by simp)
    have e1 : b64Index (b64Char (a / 4)) = some (a / 4) := b64Index_b64Char _ (by omega)
    have e2 : b64Index (b64Char (a % 4 * 16 + b / 16)) = some (a % 4 * 16 + b / 16) :=
      b64Index_b64Char _ (by omega)
    have e3 : b64Index (b64Char (b % 16 * 4)) = some (b % 16 * 4) :=
      b64Index_b64Char _ (by omega)
    have hne : b64Char (b % 16 * 4) ≠ '=' := b64Char_ne_pad _ (by omega)
    have h1 : a / 4 * 4 + (a % 4 * 16 + b / 16) / 16 = a := by omega
    have h2 : (a % 4 * 16 + b / 16) % 16 * 16 + b % 16 * 4 / 4 = b := by omega
    rw [btoa, atob.eq_def]
    simp [e1, e2, e3, hne, h1, h2]
    omega
  | case4 a b c rest ih =>
    have ha : a < 256 := hlt a (by simp)
    have hb : b < 256 := hlt b (by simp)
    have hc : c < 256 := hlt c (by simp)
    have ihh := ih (fun x hx => hlt x (by simp [hx]))
    have e1 : b64Index (b64Char (a / 4)) = some (a / 4) := b64Index_b64Char _ (by omega)
    have e2 : b64Index (b64Char (a % 4 * 16 + b / 16)) = some (a % 4 * 16 + b / 16) :=
      b64Index_b64Char _ (by omega)
    have e3 : b64Index (b64Char (b % 16 * 4 + c / 64)) = some (b % 16 * 4 + c / 64) :=
      b64Index_b64Char _ (by omega)
    have e4 : b64Index (b64Char (c % 64)) = some (c % 64) := b64Index_b64Char _ (by omega)
    have hne3 : b64Char (b % 16 * 4 + c / 64) ≠ '=' := b64Char_ne_pad _ (by omega)
    have hne4 : b64Char (c % 64) ≠ '=' := b64Char_ne_pad _ (by omega)
    have h1 : a / 4 * 4 + (a % 4 * 16 + b / 16) / 16 = a := by omega
    have h2 : (a % 4 * 16 + b / 16) % 16 * 16 + (b % 16 * 4 + c / 64) / 4 = b := by omega
    have h3 : (b % 16 * 4 + c / 64) % 4 * 64 + c % 64 = c := by omega
    rw [btoa, atob.eq_def]
    simp [e1, e2, e3, e4, hne3, hne4, ihh, h1, h2, h3]

/-! ### The transport round trip -/

theorem strItemsRest_length (its : List SnapItem) :
    its.length ≤ (strItemsRest its).length := by
  induction its with
  | nil => simp [strItemsRest]
  | cons it more ih =>
    rw [strItemsRest]
    simp only [List.length_cons, List.length_append]
    omega

theorem stringifySnap_length (snap : Snapshot) :
    snap.items.length ≤ (stringifySnap snap).length := by
  have h1 : snap.items.length ≤ (strItemsArr snap.items).length := by
    cases hits : snap.items with
    | nil => simp
    | cons it more =>
      have := strItemsRest_length more
      rw [strItemsArr]
      simp only [List.length_cons, List.length_append]
      omega
  rw [stringifySnap]
  simp only [List.length_append]
  omega

theorem decode_transportEncode (snap : Snapshot) :
    decodeState (transportEncode snap) = some snap := by
  have hfst : parseSnap (stringifySnap snap).length (stringifySnap snap) = some (snap, []) := by
    have := parseSnap_rt snap (stringifySnap snap).length (stringifySnap_length snap) []
    rwa [List.append_nil] at this
  rw [decodeState]
  rw [show (transportEncode snap).toList = btoa (utf8Encode (stringifySnap snap)) from rfl]
  rw [atob_btoa _ (utf8Encode_lt _)]
  simp only [utf8Decode_encode, hfst]

/-! ### Merge, write-path and aggregation lemmas -/

theorem lookup_eq_some_of_mem (a : String) (v : Int) : ∀ (l : List (String × Int)),
    (l.map Prod.fst).Nodup → (a, v) ∈ l → List.lookup a l = some v := by
  intro l
  induction l with
  | nil => intro _ hmem; simp at hmem
  | cons p t ih =>
    intro hnd hmem
    rcases p with ⟨b, w⟩
    simp only [List.map_cons, List.nodup_cons] at hnd
    rcases List.mem_cons.mp hmem with h | h
    · rw [Prod.ext_iff] at h
      obtain ⟨h1, h2⟩ := h
      simp only at h1 h2
      subst h1
      subst h2
      simp [List.lookup]
    · have hab : ¬a = b := by
        intro he
        subst he
        exact hnd.1 (List.mem_map_of_mem Prod.fst h)
      have hbeq : (a == b) = false := by simp [hab]
      simp only [List.lookup, hbeq]
      exact ih hnd.2 h

theorem lookup_eq_none_of_not_mem (a : String) : ∀ (l : List (String × Int)),
    a ∉ l.map Prod.fst → List.lookup a l = none := by
  intro l
  induction l with
  | nil => intro _; rfl
  | cons p t ih =>
    intro hmem
    rcases p with ⟨b, w⟩
    simp only [List.map_cons, List.mem_cons, not_or] at hmem
    have hbeq : (a == b) = false := by simp [hmem.1]
    simp only [List.lookup, hbeq]
    exact ih hmem.2

theorem mapGet_eq_some (ps : List (String × Int)) (a : String) (v : Int)
    (hnd : (ps.map Prod.fst).Nodup) (hmem : (a, v) ∈ ps) : mapGet ps a = some v := by
  rw [mapGet]
  apply lookup_eq_some_of_mem
  · rw [List.map_reverse]
    exact List.nodup_reverse.mpr hnd
  · exact List.mem_reverse.mpr hmem

theorem mapGet_eq_none (ps : List (String × Int)) (a : String)
    (hmem : a ∉ ps.map Prod.fst) : mapGet ps a = none := by
  rw [mapGet]
  apply lookup_eq_none_of_not_mem
  rw [List.map_reverse]
  simpa using hmem

theorem capacityW_pos (w : Weights) (h : 0 < w.capacityWeight.toRat) : 0 < capacityW w := by
  rw [capacityW, clamp01]
  exact lt_of_lt_of_le (lt_min one_pos h) (le_max_right _ _)

theorem initItemsDyn_miss (si : Option String) (hash : String)
    (hm : blobMissItems si) : initItemsDyn si hash = itemsFromHashDyn hash := by
  cases si with
  | none => rfl
  | some s =>
    have hm2 : s = "" ∨ jsonParse s = none
        ∨ ∃ j, jsonParse s = some j ∧ mergeFromJson j = none := hm
    rcases hm2 with he | hp | ⟨j, hj, hmf⟩
    · simp [initItemsDyn, he]
    · by_cases he2 : s = ""
      · simp [initItemsDyn, he2]
      · simp [initItemsDyn, he2, hp]
    · by_cases he2 : s = ""
      · simp [initItemsDyn, he2]
      · simp [initItemsDyn, he2, hj, hmf]

theorem initWeightsDyn_miss (sw : Option String) (hash : String)
    (hm : blobMissJson sw) : initWeightsDyn sw hash = weightsFromHashDyn hash := by
  cases sw with
  | none => rfl
  | some s =>
    have hm2 : s = "" ∨ jsonParse s = none := hm
    rcases hm2 with he | hp
    · simp [initWeightsDyn, he]
    · by_cases he2 : s = ""
      · simp [initWeightsDyn, he2]
      · simp [initWeightsDyn, he2, hp]

theorem initContextDyn_miss (today : String) (sc : Option String) (hash : String)
    (hm : blobMissJson sc) :
    initContextDyn today sc hash = contextFromHashDyn today hash := by
  cases sc with
  | none => rfl
  | some s =>
    have hm2 : s = "" ∨ jsonParse s = none := hm
    rcases hm2 with he | hp
    · simp [initContextDyn, he]
    · by_cases he2 : s = ""
      · simp [initContextDyn, he2]
      · simp [initContextDyn, he2, hp]

theorem itemsFromHashDyn_miss (hash : String) (hm : hashFieldMiss "items" hash) :
    itemsFromHashDyn hash = Except.ok defaultItemsDyn := by
  have hm2 : hash = "" ∨ decodeStateDyn hash = none
      ∨ ∃ st, decodeStateDyn hash = some st ∧ jsField st "items" = none := hm
  rcases hm2 with he | hd | ⟨st, hst, hf⟩
  · simp [itemsFromHashDyn, he]
  · by_cases he2 : hash = ""
    · simp [itemsFromHashDyn, he2]
    · simp [itemsFromHashDyn, he2, hd]
  · by_cases he2 : hash = ""
    · simp [itemsFromHashDyn, he2]
    · simp [itemsFromHashDyn, he2, hst, hf]

theorem weightsFromHashDyn_miss (hash : String) (hm : hashFieldMiss "weights" hash) :
    weightsFromHashDyn hash = defaultWeightsJson := by
  have hm2 : hash = "" ∨ decodeStateDyn hash = none
      ∨ ∃ st, decodeStateDyn hash = some st ∧ jsField st "weights" = none := hm
  rcases hm2 with he | hd | ⟨st, hst, hf⟩
  · simp [weightsFromHashDyn, he]
  · by_cases he2 : hash = ""
    · simp [weightsFromHashDyn, he2]
    · simp [weightsFromHashDyn, he2, hd]
  · by_cases he2 : hash = ""
    · simp [weightsFromHashDyn, he2]
    · simp [weightsFromHashDyn, he2, hst, hf]

theorem contextFromHashDyn_miss (today : String) (hash : String)
    (hm : hashFieldMiss "context" hash) :
    contextFromHashDyn today hash = defaultContextJson today := by
  have hm2 : hash = "" ∨ decodeStateDyn hash = none
      ∨ ∃ st, decodeStateDyn hash = some st ∧ jsField st "context" = none := hm
  rcases hm2 with he | hd | ⟨st, hst, hf⟩
  · simp [contextFromHashDyn, he]
  · by_cases he2 : hash = ""
    · simp [contextFromHashDyn, he2]
    · simp [contextFromHashDyn, he2, hd]
  · by_cases he2 : hash = ""
    · simp [contextFromHashDyn, he2]
    · simp [contextFromHashDyn, he2, hst, hf]

/-! ### The claims -/

/-- Claim C1: for every valid snapshot s (version 1, items as id/value
pairs with integer values in [0,100], a WeightPair, and a context),
decoding the string produced by encoding s yields s again:
decodeState (encodeState items weights context) returns exactly the
version-1 snapshot that encodeState serialized. -/
theorem c1_encode_decode_roundtrip (items : List MetricItem) (weights : Weights)
    (context : AssessmentContext)
    (hvalid : ∀ i ∈ items, 0 ≤ i.value ∧ i.value ≤ 100) :
    decodeState (encodeState items weights context)
      = some ⟨1, items.map (fun i => ⟨i.id, i.value⟩), weights, context⟩ := by
  rw [encodeState]
  exact decode_transportEncode _

/-- Witness for C1 at the catalog defaults. -/
theorem c1_encode_decode_roundtrip_witness :
    (∀ i ∈ defaultItems, 0 ≤ i.value ∧ i.value ≤ 100)
    ∧ decodeState (encodeState defaultItems defaultWeights (defaultContext "2026-10-11"))
        = some ⟨1, defaultItems.map (fun i => ⟨i.id, i.value⟩), defaultWeights,
            defaultContext "2026-10-11"⟩ :=
  ⟨by decide, c1_encode_decode_roundtrip defaultItems defaultWeights
    (defaultContext "2026-10-11") (by decide)⟩

/-- Claim C2 counterexample: a transport string whose payload carries
version 2 decodes to the snapshot, not to null — decodeState never
inspects the version field. -/
theorem c2_version_check_counterexample :
    decodeState (transportEncode
        ⟨2, [⟨"autonomy", 60⟩], defaultWeights, defaultContext "2026-10-11"⟩)
      = some ⟨2, [⟨"autonomy", 60⟩], defaultWeights, defaultContext "2026-10-11"⟩
    ∧ (2 : Int) ≠ 1 :=
  ⟨decode_transportEncode _, by decide⟩

/-- Claim C2 (amended): decodeState performs no version check: every
well-formed transport payload, in particular one whose version field
differs from 1, decodes to the parsed snapshot rather than to null. -/
theorem c2_no_version_check (snap : Snapshot) (hv : snap.v ≠ 1) :
    decodeState (transportEncode snap) = some snap :=
  decode_transportEncode snap

/-- Witness for the amended C2 at a version-2 payload. -/
theorem c2_no_version_check_witness :
    ((⟨2, [], defaultWeights, defaultContext "2026-10-11"⟩ : Snapshot).v ≠ 1)
    ∧ decodeState (transportEncode ⟨2, [], defaultWeights, defaultContext "2026-10-11"⟩)
        = some ⟨2, [], defaultWeights, defaultContext "2026-10-11"⟩ :=
  ⟨by decide, c2_no_version_check _ (by decide)⟩

/-- Claim C3 counterexample: writing 150 to the first metric stores 150,
not the clamped 100 — the slider write path performs no clamping. -/
theorem c3_clamping_counterexample :
    ((setMetricValue defaultItems 0 150).map (fun i => i.value)).head? = some 150
    ∧ (150 : Int) ≠ 100 := by
  constructor
  · decide
  · decide

/-- Claim C3 (amended): writing a metric value stores the given value
unchanged — the write path does not clamp (range enforcement lives in the
slider's 0..100 input bounds): the length is preserved, the targeted
entry keeps its id and takes exactly the value v, and every other entry
is unchanged. -/
theorem c3_set_metric_value (items : List MetricItem) (idx : Nat) (v : Int)
    (hidx : idx < items.length) :
    (setMetricValue items idx v).length = items.length
    ∧ ((setMetricValue items idx v).map (fun i => i.value))[idx]? = some v
    ∧ ((setMetricValue items idx v).map (fun i => i.id))[idx]?
        = (items.map (fun i => i.id))[idx]?
    ∧ ∀ k, k ≠ idx → (setMetricValue items idx v)[k]? = items[k]? := by
  have hlen : (setMetricValue items idx v).length = items.length := by
    simp [setMetricValue, List.length_mapIdx]
  refine ⟨hlen, ?_, ?_, ?_⟩
  · rw [List.getElem?_map,
      List.getElem?_eq_getElem (show idx < (setMetricValue items idx v).length by omega)]
    simp [setMetricValue, List.getElem_mapIdx]
  · rw [List.getElem?_map, List.getElem?_map,
      List.getElem?_eq_getElem (show idx < (setMetricValue items idx v).length by omega),
      List.getElem?_eq_getElem hidx]
    simp [setMetricValue, List.getElem_mapIdx]
  · intro k hk
    by_cases hklt : k < items.length
    · rw [List.getElem?_eq_getElem (show k < (setMetricValue items idx v).length by omega),
        List.getElem?_eq_getElem hklt]
      simp [setMetricValue, List.getElem_mapIdx, hk]
    · rw [List.getElem?_eq_none (by omega), List.getElem?_eq_none (by omega)]

/-- Witness for the amended C3: writing -5 stores -5 at index 0 of the
catalog. -/
theorem c3_set_metric_value_witness :
    0 < defaultItems.length
    ∧ (setMetricValue defaultItems 0 (-5)).length = defaultItems.length
    ∧ ((setMetricValue defaultItems 0 (-5)).map (fun i => i.value))[0]? = some (-5)
    ∧ ((setMetricValue defaultItems 0 (-5)).map (fun i => i.id))[0]?
        = (defaultItems.map (fun i => i.id))[0]?
    ∧ ∀ k, k ≠ 0 → (setMetricValue defaultItems 0 (-5))[k]? = defaultItems[k]? := by
  have h := c3_set_metric_value defaultItems 0 (-5) (by decide)
  exact ⟨by decide, h.1, h.2.1, h.2.2.1, h.2.2.2⟩

/-- Claim C4: merging a partial snapshot against the catalog yields
exactly one metric per catalog entry, in catalog order: the merged ids
are pointwise the catalog ids (so unknown snapshot ids are dropped and
nothing is missing or extra), a catalog id present in the snapshot
adopts the snapshot's value, and a catalog id absent from the snapshot
keeps the catalog default. -/
theorem c4_merge_catalog_coverage (ps : List (String × Int))
    (hnd : (ps.map Prod.fst).Nodup) :
    (mergeItems ps).length = defaultItems.length
    ∧ (mergeItems ps).map (fun i => i.id) = defaultItems.map (fun i => i.id)
    ∧ ∀ (k : Nat) (d : MetricItem), defaultItems[k]? = some d →
        ((∀ v : Int, (d.id, v) ∈ ps → (mergeItems ps)[k]? = some { d with value := v })
          ∧ (d.id ∉ ps.map Prod.fst → (mergeItems ps)[k]? = some d)) := by
  refine ⟨by simp [mergeItems], ?_, ?_⟩
  · rw [mergeItems, List.map_map]
    rfl
  · intro k d hd
    constructor
    · intro v hv
      rw [mergeItems, List.getElem?_map, hd]
      simp [mapGet_eq_some ps d.id v hnd hv]
    · intro hnot
      rw [mergeItems, List.getElem?_map, hd]
      simp [mapGet_eq_none ps d.id hnot]

/-- Witness for C4 at the spec's scenario: a snapshot containing only
autonomy = 90. -/
theorem c4_merge_catalog_coverage_witness :
    ((([("autonomy", (90 : Int))]).map Prod.fst).Nodup)
    ∧ (mergeItems [("autonomy", 90)]).length = defaultItems.length
    ∧ (mergeItems [("autonomy", 90)]).map (fun i => i.id)
        = defaultItems.map (fun i => i.id) := by
  have h := c4_merge_catalog_coverage [("autonomy", 90)] (by decide)
  exact ⟨by decide, h.1, h.2.1⟩

/-- Claim C5: decodeState is total and fails soft: for every input string
it returns either null or a snapshot (never an exception), and on the
malformed input "not base64 json" it returns null. -/
theorem c5_decode_total_fails_soft :
    decodeState "not base64 json" = none
    ∧ ∀ s : String, decodeState s = none ∨ ∃ snap, decodeState s = some snap := by
  constructor
  · decide
  · intro s
    cases h : decodeState s with
    | none => exact Or.inl rfl
    | some snap => exact Or.inr ⟨snap, rfl⟩

/-- Claim C6 counterexample: the persisted weights blob "5" parses to the
number 5, which the initializer adopts as the weights state instead of
treating the wrong shape as absence; and a URL fragment decoding to an
object whose items field is the truthy non-array true makes the items
initializer raise a TypeError (state.items.map is unguarded) rather than
fall through — refuting both "parseable means the expected shape" and
"never raised to the caller". -/
theorem c6_init_resolution_counterexample :
    initWeightsDyn (some "5") "" = Json.num ⟨5, 0⟩
    ∧ Json.num ⟨5, 0⟩ ≠ defaultWeightsJson
    ∧ initItemsDyn none (String.mk (btoa (utf8Encode (("\x7b\"items\":true\x7d").toList))))
        = Except.error () := by
  refine ⟨rfl, fun h => Json.noConfusion h, rfl⟩

/-- Claim C6 (amended): each component of the session state (metric
values, weights, context) resolves persisted blob, then imported
URL-fragment snapshot, then built-in defaults, but adoption is
duck-typed, not shape-checked: a persisted weights or context blob that
JSON-parses is adopted whatever its shape; a persisted items blob is
adopted when JSON.parse and the subsequent parsed.map both succeed
(parsed is an array with no null entries, any key order), the try/catch
catching everything else as a fall-through; the fragment contributes a
component exactly when it decodes to a value whose field is present and
truthy; and the fragment items path is unguarded, so a truthy non-array
items field raises a TypeError to the caller instead of falling
through. -/
theorem c6_init_duck_typed_resolution (today : String) (si sw sc : Option String)
    (hash : String) :
    ((∀ s j its, si = some s → s ≠ "" → jsonParse s = some j →
        mergeFromJson j = some its → initItemsDyn si hash = Except.ok its)
      ∧ (blobMissItems si → hash ≠ "" → ∀ st itemsJ, decodeStateDyn hash = some st →
          jsField st "items" = some itemsJ →
          initItemsDyn si hash = mergeFromHashItems itemsJ)
      ∧ (blobMissItems si → hash ≠ "" → ∀ st itemsJ, decodeStateDyn hash = some st →
          jsField st "items" = some itemsJ → (∀ xs, itemsJ ≠ Json.arr xs) →
          initItemsDyn si hash = Except.error ())
      ∧ (blobMissItems si → hashFieldMiss "items" hash →
          initItemsDyn si hash = Except.ok defaultItemsDyn))
    ∧ ((∀ s j, sw = some s → s ≠ "" → jsonParse s = some j → initWeightsDyn sw hash = j)
      ∧ (blobMissJson sw → hash ≠ "" → ∀ st w, decodeStateDyn hash = some st →
          jsField st "weights" = some w → initWeightsDyn sw hash = w)
      ∧ (blobMissJson sw → hashFieldMiss "weights" hash →
          initWeightsDyn sw hash = defaultWeightsJson))
    ∧ ((∀ s j, sc = some s → s ≠ "" → jsonParse s = some j →
          initContextDyn today sc hash = j)
      ∧ (blobMissJson sc → hash ≠ "" → ∀ st c, decodeStateDyn hash = some st →
          jsField st "context" = some c → initContextDyn today sc hash = c)
      ∧ (blobMissJson sc → hashFieldMiss "context" hash →
          initContextDyn today sc hash = defaultContextJson today)) := by
  refine ⟨⟨?_, ?_, ?_, ?_⟩, ⟨?_, ?_, ?_⟩, ⟨?_, ?_, ?_⟩⟩
  · intro s j its hs hne hj hmf
    subst hs
    simp [initItemsDyn, hne, hj, hmf]
  · intro hm hh st itemsJ hdec hf
    rw [initItemsDyn_miss si hash hm]
    simp [itemsFromHashDyn, hh, hdec, hf]
  · intro hm hh st itemsJ hdec hf hna
    rw [initItemsDyn_miss si hash hm]
    simp only [itemsFromHashDyn, hh, if_neg hh, hdec, hf]
    cases itemsJ with
    | arr xs => exact absurd rfl (hna xs)
    | num x => rfl
    | str s2 => rfl
    | bool b => rfl
    | null => rfl
    | obj fs => rfl
  · intro hm hmiss
    rw [initItemsDyn_miss si hash hm, itemsFromHashDyn_miss hash hmiss]
  · intro s j hs hne hj
    subst hs
    simp [initWeightsDyn, hne, hj]
  · intro hm hh st w hdec hf
    rw [initWeightsDyn_miss sw hash hm]
    simp [weightsFromHashDyn, hh, hdec, hf]
  · intro hm hmiss
    rw [initWeightsDyn_miss sw hash hm, weightsFromHashDyn_miss hash hmiss]
  · intro s j hs hne hj
    subst hs
    simp [initContextDyn, hne, hj]
  · intro hm hh st c hdec hf
    rw [initContextDyn_miss today sc hash hm]
    simp [contextFromHashDyn, hh, hdec, hf]
  · intro hm hmiss
    rw [initContextDyn_miss today sc hash hm, contextFromHashDyn_miss today hash hmiss]

/-- Witness for the amended C6: a persisted items blob with reordered
keys parses and is adopted through the merge; the persisted weights blob
"5" is adopted as the number 5; an absent context with no fragment
yields the built-in defaults. -/
theorem c6_init_duck_typed_resolution_witness :
    jsonParse ("[\x7b\"value\":90,\"id\":\"autonomy\"\x7d]")
      = some (Json.arr [Json.obj
          [("value", Json.num ⟨90, 0⟩), ("id", Json.str "autonomy")]])
    ∧ initItemsDyn (some ("[\x7b\"value\":90,\"id\":\"autonomy\"\x7d]")) ""
        = Except.ok (mergeItemsDyn [(some (Json.str "autonomy"), some (Json.num ⟨90, 0⟩))])
    ∧ initWeightsDyn (some "5") "" = Json.num ⟨5, 0⟩
    ∧ initContextDyn "2026-10-11" none "" = defaultContextJson "2026-10-11" := by
  have h := c6_init_duck_typed_resolution "2026-10-11"
    (some ("[\x7b\"value\":90,\"id\":\"autonomy\"\x7d]")) (some "5") none ""
  refine ⟨rfl, ?_, ?_, ?_⟩
  · exact h.1.1 _ _ _ rfl (by decide) rfl rfl
  · exact h.2.1.1 _ _ rfl (by decide) rfl
  · exact h.2.2.2.2 trivial (Or.inl rfl)

/-- Claim C7: when both weights are zero the composite score CER is 0:
the degenerate normalization substitutes total = 1, so both normalized
weights are 0 rather than a division by zero. -/
theorem c7_zero_weights (items : List MetricItem) (w : Weights)
    (hcap : w.capacityWeight.toRat = 0) (hadapt : w.adaptabilityWeight.toRat = 0) :
    CER items w = 0 := by
  have h1 : capacityW w = 0 := by
    rw [capacityW, hcap, clamp01]
    norm_num
  have h2 : adaptabilityW w = 0 := by
    rw [adaptabilityW, hadapt, clamp01]
    norm_num
  rw [CER, h1, h2]
  simp

/-- Witness for C7 at weights 0/0 over the catalog defaults. -/
theorem c7_zero_weights_witness :
    ((⟨0, 0⟩ : JsNum).toRat = 0)
    ∧ CER defaultItems ⟨⟨0, 0⟩, ⟨0, 0⟩⟩ = 0 := by
  have h0 : (⟨0, 0⟩ : JsNum).toRat = 0 := by norm_num [JsNum.toRat]
  exact ⟨h0, c7_zero_weights defaultItems ⟨⟨0, 0⟩, ⟨0, 0⟩⟩ h0 h0⟩

/-- Claim C8: for every WeightPair whose two weights are equal and
nonzero (weights are logically in [0,1], so nonzero means positive), the
composite score equals the arithmetic mean of the two group scores. -/
theorem c8_equal_weights_mean (items : List MetricItem) (w : Weights)
    (heq : w.capacityWeight.toRat = w.adaptabilityWeight.toRat)
    (hpos : 0 ≤ w.capacityWeight.toRat) (hne : w.capacityWeight.toRat ≠ 0) :
    CER items w = (capacityScore items + adaptabilityScore items) / 2 := by
  have hgt : 0 < w.capacityWeight.toRat := lt_of_le_of_ne hpos (Ne.symm hne)
  have hc : 0 < capacityW w := capacityW_pos w hgt
  have hca : adaptabilityW w = capacityW w := by
    rw [adaptabilityW, capacityW, heq]
  have hsum : 0 < capacityW w + capacityW w := by linarith
  rw [CER, hca, totalW, hca, if_neg hsum.ne']
  field_simp
  ring

/-- Witness for C8 at the default weights 0.5/0.5 over the catalog. -/
theorem c8_equal_weights_mean_witness :
    (defaultWeights.capacityWeight.toRat = defaultWeights.adaptabilityWeight.toRat)
    ∧ (0 ≤ defaultWeights.capacityWeight.toRat)
    ∧ (defaultWeights.capacityWeight.toRat ≠ 0)
    ∧ CER defaultItems defaultWeights
        = (capacityScore defaultItems + adaptabilityScore defaultItems) / 2 := by
  refine ⟨rfl, by norm_num [defaultWeights, JsNum.toRat], by norm_num [defaultWeights, JsNum.toRat], ?_⟩
  exact c8_equal_weights_mean defaultItems defaultWeights rfl
    (by norm_num [defaultWeights, JsNum.toRat]) (by norm_num [defaultWeights, JsNum.toRat])

/-- Claim C9 counterexample: after Reset the context's assessmentDate is
the module-load date (here "2026-10-11"), not the empty string, so the
reset context is not empty in every field. -/
theorem c9_reset_counterexample :
    (resetAll "2026-10-11"
        ⟨[], ⟨⟨0, 0⟩, ⟨0, 0⟩⟩, ⟨"a", "b", "c", "d", "e"⟩, "h"⟩).context.assessmentDate
      = "2026-10-11"
    ∧ ("2026-10-11" : String) ≠ "" := by
  constructor
  · rfl
  · decide

/-- Claim C9 (amended): Reset restores every metric to its catalog
default, both weights to 0.5, clears the URL fragment, and resets the
context to one whose text fields are all empty except assessmentDate,
which holds the date captured when the module loaded. -/
theorem c9_reset_restores_defaults (today : String) (prior : AppState) :
    (resetAll today prior).items = defaultItems
    ∧ (resetAll today prior).weights.capacityWeight.toRat = 1 / 2
    ∧ (resetAll today prior).weights.adaptabilityWeight.toRat = 1 / 2
    ∧ (resetAll today prior).context.teamName = ""
    ∧ (resetAll today prior).context.department = ""
    ∧ (resetAll today prior).context.assessorName = ""
    ∧ (resetAll today prior).context.assessmentPurpose = ""
    ∧ (resetAll today prior).context.assessmentDate = today
    ∧ (resetAll today prior).hash = "" := by
  refine ⟨rfl, ?_, ?_, rfl, rfl, rfl, rfl, rfl, rfl⟩
  · norm_num [resetAll, defaultWeights, JsNum.toRat]
  · norm_num [resetAll, defaultWeights, JsNum.toRat]

/-- Claim C10: merging a partial snapshot adopts only the numeric value
of each matching entry: the label, help text and group of every metric in
the merged state come from the catalog definition, untouched by any
snapshot content. -/
theorem c10_merge_preserves_catalog_fields (ps : List (String × Int)) :
    (mergeItems ps).map (fun i => (i.label, i.help, i.group))
      = defaultItems.map (fun i => (i.label, i.help, i.group)) := by
  rw [mergeItems, List.map_map]
  rfl

end CERWidget
